import Mathlib

/-!
Shallow embedding of the LUCID Finance ingestion/classification/budget engine
(backend/data_pipeline/{extractors,transformers,loaders,pipeline}.py and
backend/api/routers/{budgets,dashboard}.py), together with theorems settling
the frozen claims about it.

Modelling conventions:
* Python `float` / `Decimal` amounts are modelled as exact rationals (ℚ).
* `datetime` values are modelled at day granularity as (year, month, day).
* The relational store is modelled as a list of rows in insertion order;
  a query without ORDER BY returns the matching rows in that order, and
  `.first()` returns the head of that list.
* The SHA-256 hex digest is modelled as an arbitrary function
  `h : String → String` applied to the exact canonical string the code
  builds; collision-freedom is an explicit injectivity hypothesis.
-/

set_option maxRecDepth 4000

namespace Lucid

/-! ### Dates (day-granularity model of `datetime`) -/

structure Date where
  y : Nat
  m : Nat
  d : Nat
deriving DecidableEq, Repr

/-- Strict comparison of dates, mirroring Python `datetime` comparison at
day granularity. -/
def dateLt (a b : Date) : Bool :=
  decide (a.y < b.y) ||
    (decide (a.y = b.y) &&
      (decide (a.m < b.m) || (decide (a.m = b.m) && decide (a.d < b.d))))

def pad2 (n : Nat) : String :=
  if n < 10 then "0" ++ toString n else toString n

def pad4 (n : Nat) : String :=
  if n < 10 then "000" ++ toString n
  else if n < 100 then "00" ++ toString n
  else if n < 1000 then "0" ++ toString n
  else toString n

/-- `date.strftime("%Y-%m-%d")`. -/
def isoDate (dt : Date) : String :=
  pad4 dt.y ++ "-" ++ pad2 dt.m ++ "-" ++ pad2 dt.d

/-! ### Two-decimal formatting (`f"{amount:.2f}"`), on exact rationals -/

/-- Round to the nearest integer, ties to even (Python's float formatting
rounding mode). -/
def roundHalfEven (x : ℚ) : ℤ :=
  let fl : ℤ := ⌊x⌋
  let fr : ℚ := x - fl
  if fr < 1/2 then fl
  else if 1/2 < fr then fl + 1
  else if 2 ∣ fl then fl else fl + 1

/-- `f"{q:.2f}"`. -/
def fmt2 (q : ℚ) : String :=
  let n : ℤ := roundHalfEven (q * 100)
  let sign := if n < 0 then "-" else ""
  let na := n.natAbs
  sign ++ toString (na / 100) ++ "." ++ pad2 (na % 100)

/-! ### Substring test (Python `in` on strings) -/

def substrOf (pat s : String) : Bool := decide (pat.data <:+: s.data)

/-! ### Lower-casing (Python `str.lower()`, modelled for the ASCII range) -/

def low_char (c : Char) : Char :=
  if 65 ≤ c.toNat ∧ c.toNat ≤ 90 then Char.ofNat (c.toNat + 32) else c

/-- Python `s.lower()` (the statement data is ASCII). -/
def str_lower (s : String) : String := ⟨s.data.map low_char⟩

/-! ### Raw transactions (extractors.RawTransaction) -/

structure RawTransaction where
  date : Date
  amount : ℚ
  is_credit : Bool
  description : String
  source : String
  raw_data : List (String × String)
deriving DecidableEq, Repr

/-- `str(raw_data.get(key, ""))`: first binding of `key`, defaulting to `""`. -/
def rawLookup (rd : List (String × String)) (key : String) : String :=
  (((rd.find? (fun p => decide (p.1 = key))).map Prod.snd).getD "")

/-! ### Categorization rules (models.CategorizationRule) -/

structure CategorizationRule where
  pattern : String
  case_sensitive : Bool
  amount_operator : Option String
  amount_value : Option ℚ
  type : String
  category : String
  priority : ℤ
  is_active : Bool
  created_at : Nat
deriving DecidableEq, Repr

/-- The ORDER BY relation of `_get_active_rules`: priority descending,
then creation time descending. -/
def ruleLe (a b : CategorizationRule) : Prop :=
  b.priority < a.priority ∨ (a.priority = b.priority ∧ b.created_at ≤ a.created_at)

instance : DecidableRel ruleLe := fun a b => by
  unfold ruleLe; infer_instance

instance : IsTotal CategorizationRule ruleLe :=
  ⟨fun a b => by unfold ruleLe; omega⟩

instance : IsTrans CategorizationRule ruleLe :=
  ⟨fun a b c hab hbc => by unfold ruleLe at *; omega⟩

/-- `_get_active_rules`: active rules ordered by priority descending then
creation time descending (a stable sort over the stored table). -/
def get_active_rules (rules : List CategorizationRule) : List CategorizationRule :=
  List.insertionSort ruleLe (rules.filter (fun r => r.is_active))

/-- Python truthiness of `rule.amount_operator` (`None` and `""` are falsy). -/
def opTruthy : Option String → Bool
  | none => false
  | some s => !(decide (s = ""))

/-- One iteration of the `_check_custom_rules` loop body, as the predicate
"this rule is the one that returns": pattern substring check under the
case-sensitivity setting, then the amount condition chain. -/
def rule_matches (r : CategorizationRule) (description : String) (amount : ℚ) : Bool :=
  let desc_to_check := if r.case_sensitive then description else str_lower description
  let pattern_to_check := if r.case_sensitive then r.pattern else str_lower r.pattern
  if !(substrOf pattern_to_check desc_to_check) then false
  else if opTruthy r.amount_operator && r.amount_value.isSome then
    let av := r.amount_value.getD 0
    if decide (r.amount_operator = some "eq") && decide (amount ≠ av) then false
    else if decide (r.amount_operator = some "gte") && decide (amount < av) then false
    else if decide (r.amount_operator = some "lte") && decide (av < amount) then false
    else if decide (r.amount_operator = some "gt") && decide (amount ≤ av) then false
    else if decide (r.amount_operator = some "lt") && decide (av ≤ amount) then false
    else true
  else true

/-- The `for rule in rules:` loop of `_check_custom_rules`. -/
def rules_loop (description : String) (amount : ℚ) :
    List CategorizationRule → Option (String × String)
  | [] => none
  | r :: rs =>
    if rule_matches r description amount then some (r.type, r.category)
    else rules_loop description amount rs

/-- `_check_custom_rules(description, amount)` over a stored rule table. -/
def check_custom_rules (rules : List CategorizationRule)
    (description : String) (amount : ℚ) : Option (String × String) :=
  if description = "" then none
  else rules_loop description amount (get_active_rules rules)

/-! ### Built-in heuristics (transformers.py) -/

/-- `_categorize_ubs_income(desc1, desc2, desc3)`. -/
def categorize_ubs_income (desc1 desc2 desc3 : String) : String :=
  if substrOf "webloyalty sarl" desc1 && substrOf "salaire" desc3 then "Employment"
  else if substrOf "credit ubs twint" desc2 then "Extras / Twint Chargeback"
  else if substrOf "etat de vaud" desc1 || substrOf "civil et mil" desc1 then "Side Hustle"
  else if substrOf "loyer" (str_lower desc3) then "Side Hustle"
  else "Side Hustle"

/-- `_categorize_ubs_expense(desc1, desc2, desc3)`. -/
def categorize_ubs_expense (desc1 desc2 _desc3 : String) : String × String :=
  if substrOf "ubs card center ag" desc1 || substrOf "card center" desc1 then
    ("CC_Refund", "Card Refund Luca")
  else if substrOf "sbb mobile" desc1 || substrOf "sbb" desc1 then ("Expenses", "Train")
  else if substrOf "pilet + renaud" desc1 then ("Expenses", "Housing")
  else if substrOf "assura" desc1 then ("Expenses", "Health Insurance")
  else if substrOf "swisscom" desc1 then ("Expenses", "Internet + Mobile")
  else if substrOf "coop" desc1 || substrOf "migros" desc1 then
    if substrOf "pronto" desc1 && (substrOf "tankstelle" desc1 || substrOf "gasoline" desc1)
    then ("Expenses", "Car")
    else ("Expenses", "Groceries")
  else if substrOf "services industriels" desc1 then ("Expenses", "Home Utils")
  else if substrOf "bancomat" desc2 || substrOf "withdrawal" desc2 then
    ("Expenses", "Withdraw")
  else if substrOf "balance closing" desc1 || substrOf "service prices" desc1 then
    ("Expenses", "CC fees")
  else if substrOf "debit ubs twint" desc2 then ("Expenses", "Extras")
  else ("No-Label", "Uncategorized")

/-- The `cc_sector_patterns` table of config.CategoryMapping, in its literal
(insertion) order. -/
def cc_sector_patterns : List (String × String) :=
  [("grocery stores", "Groceries"),
   ("restaurants", "Restaurants"),
   ("bakeries", "Restaurants"),
   ("fast-food restaurants", "Restaurants"),
   ("fast food restaurant", "Restaurants"),
   ("gasoline service stations", "Car"),
   ("pharmacies", "Health Other"),
   ("digital goods", "Digital Goods"),
   ("computer software stores", "Digital Goods"),
   ("department stores", "Extras"),
   ("electronics stores", "Digital Goods"),
   ("book stores", "Extras"),
   ("barber or beauty shops", "Wellbeing"),
   ("recreation services", "Sport"),
   ("taxicabs", "Restaurants"),
   ("package stores", "Extras"),
   ("retail business", "Extras")]

/-- `_categorize_cc_expense(sector, booking_text)`. -/
def categorize_cc_expense (sector booking_text : String) : String × String :=
  match cc_sector_patterns.find? (fun pc => substrOf pc.1 sector) with
  | some pc => ("Expenses", pc.2)
  | none =>
    if sector = "" && (substrOf "interets" booking_text || substrOf "interest" booking_text)
    then ("Expenses", "CC fees")
    else ("No-Label", "Uncategorized")

/-! ### Transformed transactions (transformers.TransformedTransaction) -/

structure TransformedTransaction where
  date : Date
  type : String
  category : String
  amount : ℚ
  description : Option String
  source : String
  source_file : Option String
  transaction_hash : String
deriving DecidableEq, Repr

/-- `_transform_ubs(raw)` (custom rules, then the credit/debit heuristics). -/
def transform_ubs (rules : List CategorizationRule) (raw : RawTransaction) :
    TransformedTransaction :=
  let desc1 := str_lower (rawLookup raw.raw_data "description1")
  let desc2 := str_lower (rawLookup raw.raw_data "description2")
  let desc3 := str_lower (rawLookup raw.raw_data "description3")
  let full_description := raw.description
  let tc : String × String :=
    match check_custom_rules rules full_description raw.amount with
    | some tc => tc
    | none =>
      if raw.is_credit then ("Income", categorize_ubs_income desc1 desc2 desc3)
      else categorize_ubs_expense desc1 desc2 desc3
  { date := raw.date, type := tc.1, category := tc.2, amount := raw.amount,
    description := some raw.description, source := "UBS",
    source_file := none, transaction_hash := "" }

/-- `_transform_cc(raw)`. -/
def transform_cc (rules : List CategorizationRule) (raw : RawTransaction) :
    TransformedTransaction :=
  let sector := str_lower (rawLookup raw.raw_data "sector")
  let booking_text := str_lower (rawLookup raw.raw_data "booking text")
  let full_description := raw.description
  let tc : String × String :=
    match check_custom_rules rules full_description raw.amount with
    | some tc => tc
    | none =>
      if raw.is_credit then ("CC_Refund", "Card Refund Luca")
      else categorize_cc_expense sector booking_text
  { date := raw.date, type := tc.1, category := tc.2, amount := raw.amount,
    description := some raw.description, source := "CC",
    source_file := none, transaction_hash := "" }

/-! ### Fingerprinting (`_generate_hash`) -/

/-- `"|".join(parts)`. -/
def joinPipe : List String → String
  | [] => ""
  | [x] => x
  | x :: xs => x ++ "|" ++ joinPipe xs

/-- The `hash_parts` list built by `_generate_hash`. -/
def hash_parts (raw : RawTransaction) : List String :=
  [isoDate raw.date, fmt2 raw.amount, raw.source,
   if raw.is_credit then "credit" else "debit"] ++
  (if raw.source = "UBS" then
    [(rawLookup raw.raw_data "description1").take 50,
     rawLookup raw.raw_data "transaction no."]
  else
    [(rawLookup raw.raw_data "sector").take 30,
     (rawLookup raw.raw_data "booking text").take 30])

/-- The canonical `hash_string` fed to the hash. -/
def hash_input (raw : RawTransaction) : String := joinPipe (hash_parts raw)

/-- `_generate_hash`, with the SHA-256 hex digest abstracted as `h`. -/
def generate_hash (h : String → String) (raw : RawTransaction) : String :=
  h (hash_input raw)

/-- `TransactionTransformer.transform`: per-source transform, then stamp the
source file and the fingerprint. -/
def transform (h : String → String) (rules : List CategorizationRule)
    (source_file : Option String) (raws : List RawTransaction) :
    List TransformedTransaction :=
  raws.map (fun raw =>
    let result :=
      if raw.source = "UBS" then transform_ubs rules raw else transform_cc rules raw
    { result with source_file := source_file, transaction_hash := generate_hash h raw })

/-! ### Validation (transformers.TransactionValidator) -/

/-- `CategoryMapping.valid_types`. -/
def valid_types : List String := ["Income", "Expenses", "Savings", "CC_Refund", "No-Label"]

/-- `_validate_single(trans)`, with the session time passed explicitly. -/
def validate_single (now : Date) (t : TransformedTransaction) : Option String :=
  if !(valid_types.contains t.type) then
    some ("Invalid transaction type: " ++ t.type)
  else if t.amount ≤ 0 then
    some ("Amount must be positive: " ++ toString t.amount)
  else if dateLt now t.date then
    some ("Date is in the future: " ++ isoDate t.date)
  else none

/-- `TransactionValidator.validate`: split into (valid, errors) in input order. -/
def validate (now : Date) (transactions : List TransformedTransaction) :
    List TransformedTransaction × List (TransformedTransaction × String) :=
  transactions.foldl
    (fun acc t =>
      match validate_single now t with
      | some msg => (acc.1, acc.2 ++ [(t, msg)])
      | none => (acc.1 ++ [t], acc.2))
    ([], [])

/-! ### Persisted transactions and the loader (loaders.TransactionLoader) -/

/-- A row of the `transactions` table.  The loader constructs rows without
assigning `user_id`, so the owner column is optional here and left `none`
by `load` (rows created elsewhere may carry an owner). -/
structure TransactionRow where
  user_id : Option Nat
  date : Date
  type : String
  category : String
  amount : ℚ
  description : Option String
  source : String
  month : Nat
  year : Nat
  source_file : Option String
  transaction_hash : String
deriving DecidableEq, Repr

structure LoadStats where
  total : Nat
  inserted : Nat
  skipped : Nat
  errors : Nat
deriving DecidableEq, Repr

/-- `_get_existing_hashes(session)`: the hashes of ALL stored transactions
(the query has no owner filter). -/
def get_existing_hashes (db : List TransactionRow) : List String :=
  db.map (fun r => r.transaction_hash)

/-- The `Transaction(...)` constructor call inside `load`. -/
def mkTransactionRow (t : TransformedTransaction) : TransactionRow :=
  { user_id := none, date := t.date, type := t.type, category := t.category,
    amount := t.amount, description := t.description, source := t.source,
    month := t.date.m, year := t.date.y, source_file := t.source_file,
    transaction_hash := t.transaction_hash }

/-- The per-record loop of `load`: skip on a known fingerprint, otherwise
persist and add the fingerprint to the in-memory set. -/
def load_go (rows : List TransactionRow) (hashes : List String)
    (inserted skipped : Nat) :
    List TransformedTransaction → List TransactionRow × List String × Nat × Nat
  | [] => (rows, hashes, inserted, skipped)
  | t :: ts =>
    if t.transaction_hash ∈ hashes then
      load_go rows hashes inserted (skipped + 1) ts
    else
      load_go (rows ++ [mkTransactionRow t]) (t.transaction_hash :: hashes)
        (inserted + 1) skipped ts

/-- `TransactionLoader.load(transactions)`: returns the updated store and the
statistics dictionary (persistence succeeds in this model, so `errors = 0`). -/
def load (db : List TransactionRow) (transactions : List TransformedTransaction) :
    List TransactionRow × LoadStats :=
  let r := load_go db (get_existing_hashes db) 0 0 transactions
  (r.1, { total := transactions.length, inserted := r.2.2.1,
          skipped := r.2.2.2, errors := 0 })

/-! ### Processed-file tracking (loaders.ProcessedFileTracker) -/

structure ProcessedFileRow where
  filename : String
  file_type : String
  record_count : Nat
deriving DecidableEq, Repr

/-- `is_processed(filename)`: any marker row with this filename (the query
filters on the filename only). -/
def is_processed (pf : List ProcessedFileRow) (filename : String) : Bool :=
  pf.any (fun r => decide (r.filename = filename))

/-- `mark_processed(filename, file_type, record_count)`: insert a marker; a
uniqueness conflict on an already-marked file is swallowed (no change). -/
def mark_processed (pf : List ProcessedFileRow)
    (filename file_type : String) (record_count : Nat) : List ProcessedFileRow :=
  if pf.any (fun r => decide (r.filename = filename)) then pf
  else pf ++ [{ filename := filename, file_type := file_type,
                record_count := record_count }]

/-! ### Pipeline orchestration (pipeline.TransactionPipeline) -/

/-- The durable state the pipeline touches. -/
structure PipelineState where
  transactions : List TransactionRow
  processed_files : List ProcessedFileRow
deriving DecidableEq, Repr

/-- `_process_ubs_file` / `_process_cc_file`: extract (the file is given by
its extracted raw rows), transform, validate, load, mark processed. -/
def process_one_file (h : String → String) (rules : List CategorizationRule)
    (now : Date) (st : PipelineState) (filename file_type : String)
    (raws : List RawTransaction) : PipelineState × LoadStats :=
  let transformed := transform h rules (some filename) raws
  let valid := (validate now transformed).1
  let r := load st.transactions valid
  let pf := mark_processed st.processed_files filename file_type valid.length
  ({ transactions := r.1, processed_files := pf }, r.2)

/-- One file's branch of `process_files(..., force)`: skip when a marker
exists and `force` is off; `none` statistics means the file was skipped. -/
def process_files (h : String → String) (rules : List CategorizationRule)
    (now : Date) (st : PipelineState) (filename file_type : String)
    (raws : List RawTransaction) (force : Bool) :
    PipelineState × Option LoadStats :=
  if force || !(is_processed st.processed_files filename) then
    let r := process_one_file h rules now st filename file_type raws
    (r.1, some r.2)
  else (st, none)

/-! ### Budget plans (models.BudgetPlan, routers/budgets.py) -/

/-- A row of the `budget_plans` table: `month = none` is the yearly row. -/
structure BudgetRow where
  user_id : Nat
  year : Int
  month : Option Nat
  type : String
  category : String
  amount : ℚ
deriving DecidableEq, Repr

/-- The request body of POST /api/budgets (schemas.BudgetPlanCreate). -/
structure BudgetPlanCreate where
  type : String
  category : String
  year : Int
  month : Option Nat
  amount : ℚ
deriving DecidableEq, Repr

/-- The key filter used by every budget query in `create_budget`. -/
def budgetKeyMatch (uid : Nat) (ty cat : String) (year : Int)
    (month : Option Nat) (r : BudgetRow) : Prop :=
  r.user_id = uid ∧ r.type = ty ∧ r.category = cat ∧ r.year = year ∧ r.month = month

instance (uid ty cat year month) : DecidablePred (budgetKeyMatch uid ty cat year month) :=
  fun r => by unfold budgetKeyMatch; infer_instance

/-- The query-then-update-or-add upsert used throughout `create_budget`:
update the first stored row matching the full key, else append a new row. -/
def upsert_budget (uid : Nat) (ty cat : String) (year : Int) (month : Option Nat)
    (amount : ℚ) : List BudgetRow → List BudgetRow
  | [] => [{ user_id := uid, year := year, month := month, type := ty,
             category := cat, amount := amount }]
  | r :: rs =>
    if budgetKeyMatch uid ty cat year month r then { r with amount := amount } :: rs
    else r :: upsert_budget uid ty cat year month amount rs

/-- `create_budget(budget, auto_populate)`: upsert the row itself, then
fan out a yearly entry to 12 monthly rows at amount/12, or fan a monthly
entry in by summing all monthly rows when exactly 12 of them exist. -/
def create_budget (uid : Nat) (b : BudgetPlanCreate) (auto_populate : Bool)
    (db : List BudgetRow) : List BudgetRow :=
  let db1 := upsert_budget uid b.type b.category b.year b.month b.amount db
  if auto_populate then
    match b.month with
    | none =>
      let monthly_amount := b.amount / 12
      (List.range' 1 12).foldl
        (fun d month_num =>
          upsert_budget uid b.type b.category b.year (some month_num)
            monthly_amount d)
        db1
    | some _ =>
      let all_monthly := db1.filter (fun r =>
        decide (r.user_id = uid ∧ r.type = b.type ∧ r.category = b.category ∧
          r.year = b.year ∧ r.month ≠ none))
      if all_monthly.length = 12 then
        let yearly_total := (all_monthly.map (fun r => r.amount)).sum
        upsert_budget uid b.type b.category b.year none yearly_total db1
      else db1
  else db1

/-! ### Dashboard budget resolution (routers/dashboard.py, get_dashboard_summary) -/

/-- The single-month `budgets` dict: one pass over the rows matching
`month == m or month is null`, each row overwriting the key's entry (a
yearly row contributes amount/12, a monthly row its amount). -/
def budgets_for_month (db : List BudgetRow) (uid : Nat) (year : Int) (m : Nat) :
    (String × String) → Option ℚ :=
  (db.filter (fun b =>
      decide (b.user_id = uid ∧ b.year = year ∧ (b.month = some m ∨ b.month = none)))).foldl
    (fun acc b => fun key =>
      if key = (b.type, b.category) then
        some (if b.month = none then b.amount / 12 else b.amount)
      else acc key)
    (fun _ => none)

/-- The full-year `budgets` dict: yearly rows and monthly sums collected
separately, then the yearly amount preferred when present. -/
def budgets_for_year (db : List BudgetRow) (uid : Nat) (year : Int) :
    (String × String) → Option ℚ :=
  let all_budgets := db.filter (fun b => decide (b.user_id = uid ∧ b.year = year))
  let acc := all_budgets.foldl
    (fun (acc : ((String × String) → Option ℚ) × ((String × String) → Option ℚ)) b =>
      if b.month = none then
        (fun key => if key = (b.type, b.category) then some b.amount else acc.1 key,
         acc.2)
      else
        (acc.1,
         fun key =>
           if key = (b.type, b.category) then some ((acc.2 key).getD 0 + b.amount)
           else acc.2 key))
    (fun _ => none, fun _ => none)
  fun key =>
    match acc.1 key with
    | some v => some v
    | none => acc.2 key

/-- `budgets.get(key, 0.0)` as used when building the summary items. -/
def budget_for_summary (resolved : (String × String) → Option ℚ)
    (key : String × String) : ℚ :=
  (resolved key).getD 0

/-! ## Validation: characterization of `validate` -/

/-- The error taxonomy for a classified transaction, as specified: a type
outside the closed enumeration, a non-positive amount, or a future date. -/
def spec_invalid (now : Date) (t : TransformedTransaction) : Bool :=
  !(valid_types.contains t.type) || decide (t.amount ≤ 0) || dateLt now t.date

lemma validate_single_none_iff (now : Date) (t : TransformedTransaction) :
    (validate_single now t).isNone = !(spec_invalid now t) := by
  unfold validate_single spec_invalid
  split_ifs with h1 h2 h3 <;> simp_all

lemma validate_foldl (now : Date) :
    ∀ (ts : List TransformedTransaction) (v : List TransformedTransaction)
      (e : List (TransformedTransaction × String)),
      ts.foldl
        (fun acc t =>
          match validate_single now t with
          | some msg => (acc.1, acc.2 ++ [(t, msg)])
          | none => (acc.1 ++ [t], acc.2)) (v, e) =
      (v ++ ts.filter (fun t => (validate_single now t).isNone),
       e ++ ts.filterMap (fun t => (validate_single now t).map (fun m => (t, m))))
  | [], v, e => by simp
  | t :: ts, v, e => by
    rcases h : validate_single now t with _ | msg
    · simp only [List.foldl_cons, h]
      rw [validate_foldl now ts (v ++ [t]) e]
      simp [h]
    · simp only [List.foldl_cons, h]
      rw [validate_foldl now ts v (e ++ [(t, msg)])]
      simp [h]

lemma validate_eq (now : Date) (ts : List TransformedTransaction) :
    validate now ts =
      (ts.filter (fun t => (validate_single now t).isNone),
       ts.filterMap (fun t => (validate_single now t).map (fun m => (t, m)))) := by
  unfold validate
  rw [validate_foldl]
  simp

/-- **C9.** Validation partitions its input: a transaction with an invalid
type, non-positive amount or future date goes (with its error message) to the
error list, every other transaction goes to the valid list, the relative
order is preserved, and the two lists together account for every input. -/
theorem validation_partitions (now : Date) (ts : List TransformedTransaction) :
    (validate now ts).1 = ts.filter (fun t => !(spec_invalid now t)) ∧
    (validate now ts).2.map Prod.fst = ts.filter (fun t => spec_invalid now t) ∧
    (∀ p ∈ (validate now ts).2, validate_single now p.1 = some p.2) ∧
    (validate now ts).1.length + (validate now ts).2.length = ts.length := by
  rw [validate_eq]
  refine ⟨?_, ?_, ?_, ?_⟩
  · simp only [validate_single_none_iff]
  · induction ts with
    | nil => simp
    | cons t ts ih =>
      rcases h : validate_single now t with _ | msg
      · have hb : spec_invalid now t = false := by
          have := validate_single_none_iff now t
          rw [h] at this
          simpa using this.symm
        simp [h, hb, ih]
      · have hb : spec_invalid now t = true := by
          have := validate_single_none_iff now t
          rw [h] at this
          simpa using this.symm
        simp [h, hb, ih]
  · intro p hp
    simp only [List.mem_filterMap] at hp
    obtain ⟨t, _, ht⟩ := hp
    rcases h : validate_single now t with _ | msg <;> rw [h] at ht
    · simp at ht
    · simp only [Option.map] at ht
      obtain rfl : (t, msg) = p := by simpa using ht
      exact h
  · induction ts with
    | nil => simp
    | cons t ts ih =>
      rcases h : validate_single now t with _ | msg <;>
        simp [h, ← ih] <;> omega

/-! ## Classification with an empty description -/

lemma check_custom_rules_empty (rules : List CategorizationRule) (a : ℚ) :
    check_custom_rules rules "" a = none := by
  simp [check_custom_rules]

/-- **C10.** A transaction with an empty description never matches a custom
rule (not even an empty-pattern rule): the user-rule pass returns `none`, and
the classification produced by the per-source transform does not depend on
the rule set at all. -/
theorem empty_description_ignores_rules (rules rules' : List CategorizationRule)
    (a : ℚ) (raw : RawTransaction) (hdesc : raw.description = "") :
    check_custom_rules rules "" a = none ∧
    transform_ubs rules raw = transform_ubs rules' raw ∧
    transform_cc rules raw = transform_cc rules' raw := by
  refine ⟨check_custom_rules_empty rules a, ?_, ?_⟩
  · simp only [transform_ubs, hdesc, check_custom_rules_empty]
  · simp only [transform_cc, hdesc, check_custom_rules_empty]

/-- A rule whose pattern is the empty string (would substring-match any
description, including the empty one). -/
def empty_pattern_rule : CategorizationRule :=
  { pattern := "", case_sensitive := false, amount_operator := none,
    amount_value := none, type := "Expenses", category := "Extras",
    priority := 100, is_active := true, created_at := 0 }

/-- A raw ledger row with an empty description. -/
def blank_raw : RawTransaction :=
  { date := ⟨2024, 3, 7⟩, amount := 10, is_credit := false, description := "",
    source := "UBS", raw_data := [] }

theorem empty_description_ignores_rules_witness :
    blank_raw.description = "" ∧
    (check_custom_rules [empty_pattern_rule] "" 10 = none ∧
     transform_ubs [empty_pattern_rule] blank_raw = transform_ubs [] blank_raw ∧
     transform_cc [empty_pattern_rule] blank_raw = transform_cc [] blank_raw) :=
  ⟨rfl, empty_description_ignores_rules [empty_pattern_rule] [] 10 blank_raw rfl⟩

/-! ## Rule matching semantics -/

/-- The matching condition as specified: the pattern is a substring of the
description under the rule's case-sensitivity setting. -/
def spec_pattern_match (r : CategorizationRule) (description : String) : Prop :=
  if r.case_sensitive then r.pattern.data <:+: description.data
  else (str_lower r.pattern).data <:+: (str_lower description).data

/-- The amount predicate as specified: when an operator and threshold are
set, the (non-negative) magnitude satisfies the comparison. -/
def spec_amount_ok (r : CategorizationRule) (amount : ℚ) : Prop :=
  match r.amount_operator, r.amount_value with
  | some "eq", some v => amount = v
  | some "gte", some v => v ≤ amount
  | some "lte", some v => amount ≤ v
  | some "gt", some v => v < amount
  | some "lt", some v => amount < v
  | _, _ => True

/-- Well-formedness: either no amount predicate, or one of the five
comparison operators together with a threshold value. -/
def rule_wf (r : CategorizationRule) : Prop :=
  r.amount_operator = none ∨
    (r.amount_operator ∈ [some "eq", some "gte", some "lte", some "gt", some "lt"] ∧
      r.amount_value.isSome)

lemma substr_check_iff (r : CategorizationRule) (d : String) :
    (substrOf (if r.case_sensitive then r.pattern else str_lower r.pattern)
        (if r.case_sensitive then d else str_lower d) = true) ↔
      spec_pattern_match r d := by
  unfold substrOf spec_pattern_match
  by_cases h : r.case_sensitive <;> simp [h]

/-- **C7.** A rule matches iff its pattern is a substring of the description
under the case-sensitivity setting and, when an amount predicate is set, the
magnitude satisfies the operator against the threshold. -/
theorem rule_matching_semantics (r : CategorizationRule) (d : String) (a : ℚ)
    (hwf : rule_wf r) :
    rule_matches r d a = true ↔ spec_pattern_match r d ∧ spec_amount_ok r a := by
  unfold rule_matches
  rcases hwf with hop | ⟨hop, hval⟩
  · simp only [hop, opTruthy, Bool.false_and, Bool.if_false_left]
    simp only [Bool.not_eq_eq_eq_not, Bool.not_true, Bool.and_true]
    rw [← substr_check_iff r d]
    unfold spec_amount_ok
    rw [hop]
    cases hsub : substrOf (if r.case_sensitive then r.pattern else str_lower r.pattern)
        (if r.case_sensitive then d else str_lower d) <;> simp
  · obtain ⟨v, hv⟩ := Option.isSome_iff_exists.mp hval
    simp only [List.mem_cons, List.not_mem_nil, or_false] at hop
    rw [← substr_check_iff r d]
    rcases hop with hop | hop | hop | hop | hop <;>
      · unfold spec_amount_ok opTruthy
        rw [hop, hv]
        cases hsub : substrOf (if r.case_sensitive then r.pattern else str_lower r.pattern)
            (if r.case_sensitive then d else str_lower d) <;>
          simp [hsub, not_lt, not_le]

/-- The claim's example rule: pattern "netflix" with `amount < 20`. -/
def netflix_rule : CategorizationRule :=
  { pattern := "netflix", case_sensitive := false, amount_operator := some "lt",
    amount_value := some 20, type := "Expenses", category := "Media",
    priority := 10, is_active := true, created_at := 1 }

theorem rule_matching_semantics_witness :
    rule_wf netflix_rule ∧
    (rule_matches netflix_rule "netflix.com abo" (mkRat 1599 100) = true ↔
      spec_pattern_match netflix_rule "netflix.com abo" ∧
      spec_amount_ok netflix_rule (mkRat 1599 100)) ∧
    rule_matches netflix_rule "netflix.com abo" (mkRat 1599 100) = true ∧
    rule_matches netflix_rule "netflix.com abo" (mkRat 14999 100) = false ∧
    check_custom_rules [netflix_rule] "netflix.com abo" (mkRat 14999 100) = none :=
  ⟨Or.inr ⟨by simp [netflix_rule], rfl⟩,
   rule_matching_semantics netflix_rule "netflix.com abo" (mkRat 1599 100)
     (Or.inr ⟨by simp [netflix_rule], rfl⟩),
   by decide, by decide, by decide⟩

/-! ## Rule precedence -/

lemma rules_loop_eq_find (d : String) (a : ℚ) :
    ∀ rs : List CategorizationRule,
      rules_loop d a rs =
        (rs.find? (fun r => rule_matches r d a)).map (fun r => (r.type, r.category))
  | [] => rfl
  | r :: rs => by
    by_cases h : rule_matches r d a
    · simp [rules_loop, h]
    · simp only [rules_loop, h, Bool.false_eq_true, if_false,
        rules_loop_eq_find d a rs]
      rw [List.find?_cons_of_neg]
      simp [h]

lemma ruleLe_of_priority_lt {r1 r2 : CategorizationRule}
    (h : r2.priority < r1.priority) : ruleLe r1 r2 := Or.inl h

lemma not_ruleLe_of_priority_lt {r1 r2 : CategorizationRule}
    (h : r2.priority < r1.priority) : ¬ ruleLe r2 r1 := by
  unfold ruleLe; omega

lemma two_rule_sort {r1 r2 : CategorizationRule}
    (h12 : ruleLe r1 r2) (h21 : ¬ ruleLe r2 r1)
    (ha1 : r1.is_active = true) (ha2 : r2.is_active = true) :
    get_active_rules [r1, r2] = [r1, r2] ∧ get_active_rules [r2, r1] = [r1, r2] := by
  constructor <;>
    simp [get_active_rules, ha1, ha2, List.insertionSort, List.orderedInsert,
      h12, h21]

/-- **C6.** Classification evaluates only active rules, in priority-descending
order with ties broken by creation-time descending, returning the first
matching rule's (type, category); in particular, of two matching active rules
the higher-priority one wins, and at equal priority the more recently created
one wins, in either storage order. -/
theorem rule_precedence (rules : List CategorizationRule) (d : String) (a : ℚ)
    (hd : d ≠ "") :
    check_custom_rules rules d a =
      ((get_active_rules rules).find? (fun r => rule_matches r d a)).map
        (fun r => (r.type, r.category)) ∧
    (get_active_rules rules).Perm (rules.filter (fun r => r.is_active)) ∧
    List.Sorted ruleLe (get_active_rules rules) ∧
    (∀ r1 r2 : CategorizationRule, r1.is_active = true → r2.is_active = true →
      rule_matches r1 d a = true → rule_matches r2 d a = true →
      r2.priority < r1.priority →
      check_custom_rules [r1, r2] d a = some (r1.type, r1.category) ∧
      check_custom_rules [r2, r1] d a = some (r1.type, r1.category)) ∧
    (∀ r1 r2 : CategorizationRule, r1.is_active = true → r2.is_active = true →
      rule_matches r1 d a = true → rule_matches r2 d a = true →
      r1.priority = r2.priority → r2.created_at < r1.created_at →
      check_custom_rules [r1, r2] d a = some (r1.type, r1.category) ∧
      check_custom_rules [r2, r1] d a = some (r1.type, r1.category)) := by
  refine ⟨?_, List.perm_insertionSort ruleLe _, List.sorted_insertionSort ruleLe _,
    ?_, ?_⟩
  · simp [check_custom_rules, hd, rules_loop_eq_find]
  · intro r1 r2 ha1 ha2 hm1 hm2 hp
    have hs := two_rule_sort (ruleLe_of_priority_lt hp)
      (not_ruleLe_of_priority_lt hp) ha1 ha2
    constructor <;>
      · simp only [check_custom_rules, hd, if_neg, hs.1, hs.2]
        simp [rules_loop, hm1]
  · intro r1 r2 ha1 ha2 hm1 hm2 hp hc
    have h12 : ruleLe r1 r2 := Or.inr ⟨hp, Nat.le_of_lt hc⟩
    have h21 : ¬ ruleLe r2 r1 := by unfold ruleLe; omega
    have hs := two_rule_sort h12 h21 ha1 ha2
    constructor <;>
      · simp only [check_custom_rules, hd, if_neg, hs.1, hs.2]
        simp [rules_loop, hm1]

/-- A matching rule with priority 10 (created earlier). -/
def grocery_rule : CategorizationRule :=
  { pattern := "migros", case_sensitive := false, amount_operator := none,
    amount_value := none, type := "Expenses", category := "Groceries",
    priority := 10, is_active := true, created_at := 3 }

/-- A matching rule with priority 5 (created later). -/
def extras_rule : CategorizationRule :=
  { pattern := "migros", case_sensitive := false, amount_operator := none,
    amount_value := none, type := "Expenses", category := "Extras",
    priority := 5, is_active := true, created_at := 7 }

theorem rule_precedence_witness :
    ("migros zurich" : String) ≠ "" ∧
    (check_custom_rules [grocery_rule, extras_rule] "migros zurich" 50 =
        some ("Expenses", "Groceries") ∧
     check_custom_rules [extras_rule, grocery_rule] "migros zurich" 50 =
        some ("Expenses", "Groceries")) :=
  ⟨by decide,
   (rule_precedence [grocery_rule, extras_rule] "migros zurich" 50
        (by decide)).2.2.2.1 grocery_rule extras_rule
      (by decide) (by decide) (by decide) (by decide) (by decide)⟩

/-! ## Fingerprint stability -/

lemma joinPipe_cons (x : String) (l : List String) (h : l ≠ []) :
    joinPipe (x :: l) = x ++ "|" ++ joinPipe l := by
  cases l with
  | nil => exact absurd rfl h
  | cons y ys => rfl

lemma str_append_right_ne {x y : String} (t : String) (h : x ≠ y) :
    x ++ t ≠ y ++ t := by
  intro he
  apply h
  apply String.ext
  have hd := congrArg String.data he
  rw [String.data_append, String.data_append] at hd
  exact List.append_cancel_right hd

lemma str_append_left_ne (p : String) {x y : String} (h : x ≠ y) :
    p ++ x ≠ p ++ y := by
  intro he
  apply h
  apply String.ext
  have hd := congrArg String.data he
  rw [String.data_append, String.data_append] at hd
  exact List.append_cancel_left hd

/-- Changing exactly one component of a `"|"`-joined list changes the joined
string (the surrounding components being held fixed). -/
lemma joinPipe_ne_mid :
    ∀ (pre : List String) {x y : String} (suf : List String), x ≠ y →
      joinPipe (pre ++ x :: suf) ≠ joinPipe (pre ++ y :: suf)
  | [], x, y, [], h => by simpa [joinPipe] using h
  | [], x, y, s :: ss, h => by
    simp only [List.nil_append]
    rw [joinPipe_cons x (s :: ss) (by simp), joinPipe_cons y (s :: ss) (by simp)]
    exact str_append_right_ne _ (str_append_right_ne "|" h)
  | p :: pre, x, y, suf, h => by
    have hx : pre ++ x :: suf ≠ [] := by simp
    have hy : pre ++ y :: suf ≠ [] := by simp
    rw [List.cons_append, List.cons_append, joinPipe_cons p _ hx, joinPipe_cons p _ hy]
    exact str_append_left_ne _ (joinPipe_ne_mid pre suf h)

/-- Joined canonical strings with source tag "UBS" and "CC" in the third slot
differ whatever the remaining components are: the tags differ at their first
character. -/
lemma joinPipe_src_ne (a b d1 e1 f1 d2 e2 f2 : String) :
    joinPipe [a, b, "UBS", d1, e1, f1] ≠ joinPipe [a, b, "CC", d2, e2, f2] := by
  intro he
  have hd := congrArg String.data he
  simp only [joinPipe, String.data_append, List.append_assoc, List.cons_append,
    List.nil_append, show ("|" : String).data = ['|'] from rfl,
    show ("UBS" : String).data = ['U', 'B', 'S'] from rfl,
    show ("CC" : String).data = ['C', 'C'] from rfl] at hd
  have h2 := List.append_cancel_left hd
  injection h2 with _ h3
  have h4 := List.append_cancel_left h3
  injection h4 with _ h5
  injection h5 with h6 _
  exact absurd h6 (by decide)

/-- The derived fields the fingerprint is built from, per the claim: ISO
date, two-decimal amount, source tag, polarity flag, and the truncated
source-specific disambiguating fields. -/
def fp_date (r : RawTransaction) : String := isoDate r.date
def fp_amount (r : RawTransaction) : String := fmt2 r.amount
def fp_desc1 (r : RawTransaction) : String :=
  (rawLookup r.raw_data "description1").take 50
def fp_transno (r : RawTransaction) : String :=
  rawLookup r.raw_data "transaction no."
def fp_sector (r : RawTransaction) : String :=
  (rawLookup r.raw_data "sector").take 30
def fp_booking (r : RawTransaction) : String :=
  (rawLookup r.raw_data "booking text").take 30

lemma hash_parts_ubs (r : RawTransaction) (h : r.source = "UBS") :
    hash_parts r = [fp_date r, fp_amount r, r.source,
      if r.is_credit then "credit" else "debit", fp_desc1 r, fp_transno r] := by
  simp [hash_parts, h, fp_date, fp_amount, fp_desc1, fp_transno]

lemma hash_parts_cc (r : RawTransaction) (h : ¬ (r.source = "UBS")) :
    hash_parts r = [fp_date r, fp_amount r, r.source,
      if r.is_credit then "credit" else "debit", fp_sector r, fp_booking r] := by
  simp [hash_parts, h, fp_date, fp_amount, fp_sector, fp_booking]

/-- **C8.** The fingerprint is a deterministic function of exactly the ISO
date, the two-decimal amount, the source tag, the polarity token and the two
source-specific disambiguating fields: agreement on those yields the same
fingerprint regardless of every other field, and (for a collision-free hash)
changing any single one of them changes the fingerprint. -/
theorem fingerprint_stability (h : String → String) (r1 r2 : RawTransaction) :
    (fp_date r1 = fp_date r2 → fp_amount r1 = fp_amount r2 →
      r1.source = r2.source → r1.is_credit = r2.is_credit →
      fp_desc1 r1 = fp_desc1 r2 → fp_transno r1 = fp_transno r2 →
      fp_sector r1 = fp_sector r2 → fp_booking r1 = fp_booking r2 →
      generate_hash h r1 = generate_hash h r2) ∧
    (Function.Injective h →
      ((fp_amount r1 = fp_amount r2 → r1.source = r2.source →
        r1.is_credit = r2.is_credit →
        fp_desc1 r1 = fp_desc1 r2 → fp_transno r1 = fp_transno r2 →
        fp_sector r1 = fp_sector r2 → fp_booking r1 = fp_booking r2 →
        fp_date r1 ≠ fp_date r2 →
        generate_hash h r1 ≠ generate_hash h r2) ∧
      (fp_date r1 = fp_date r2 → r1.source = r2.source →
        r1.is_credit = r2.is_credit →
        fp_desc1 r1 = fp_desc1 r2 → fp_transno r1 = fp_transno r2 →
        fp_sector r1 = fp_sector r2 → fp_booking r1 = fp_booking r2 →
        fp_amount r1 ≠ fp_amount r2 →
        generate_hash h r1 ≠ generate_hash h r2) ∧
      (fp_date r1 = fp_date r2 → fp_amount r1 = fp_amount r2 →
        r1.is_credit = r2.is_credit →
        r1.source = "UBS" → r2.source = "CC" →
        generate_hash h r1 ≠ generate_hash h r2) ∧
      (fp_date r1 = fp_date r2 → fp_amount r1 = fp_amount r2 →
        r1.source = r2.source →
        fp_desc1 r1 = fp_desc1 r2 → fp_transno r1 = fp_transno r2 →
        fp_sector r1 = fp_sector r2 → fp_booking r1 = fp_booking r2 →
        r1.is_credit ≠ r2.is_credit →
        generate_hash h r1 ≠ generate_hash h r2) ∧
      (fp_date r1 = fp_date r2 → fp_amount r1 = fp_amount r2 →
        r1.source = "UBS" → r2.source = "UBS" → r1.is_credit = r2.is_credit →
        fp_transno r1 = fp_transno r2 → fp_desc1 r1 ≠ fp_desc1 r2 →
        generate_hash h r1 ≠ generate_hash h r2) ∧
      (fp_date r1 = fp_date r2 → fp_amount r1 = fp_amount r2 →
        r1.source = "UBS" → r2.source = "UBS" → r1.is_credit = r2.is_credit →
        fp_desc1 r1 = fp_desc1 r2 → fp_transno r1 ≠ fp_transno r2 →
        generate_hash h r1 ≠ generate_hash h r2) ∧
      (fp_date r1 = fp_date r2 → fp_amount r1 = fp_amount r2 →
        r1.source = r2.source → r1.source ≠ "UBS" → r1.is_credit = r2.is_credit →
        fp_booking r1 = fp_booking r2 → fp_sector r1 ≠ fp_sector r2 →
        generate_hash h r1 ≠ generate_hash h r2) ∧
      (fp_date r1 = fp_date r2 → fp_amount r1 = fp_amount r2 →
        r1.source = r2.source → r1.source ≠ "UBS" → r1.is_credit = r2.is_credit →
        fp_sector r1 = fp_sector r2 → fp_booking r1 ≠ fp_booking r2 →
        generate_hash h r1 ≠ generate_hash h r2))) := by
  have hpol : ∀ {s t : RawTransaction}, s.is_credit = t.is_credit →
      (if s.is_credit then "credit" else "debit") =
        (if t.is_credit then "credit" else "debit") := by
    intro s t hp
    rw [hp]
  constructor
  · intro h1 h2 h3 h4 h5 h6 h7 h8
    unfold generate_hash hash_input
    by_cases hu : r1.source = "UBS"
    · rw [hash_parts_ubs r1 hu, hash_parts_ubs r2 (h3 ▸ hu),
        h1, h2, h3, hpol h4, h5, h6]
    · rw [hash_parts_cc r1 hu, hash_parts_cc r2 (fun hc => hu (h3.trans hc)),
        h1, h2, h3, hpol h4, h7, h8]
  · intro hinj
    have key : ∀ {s t : RawTransaction},
        hash_input s ≠ hash_input t → generate_hash h s ≠ generate_hash h t :=
      fun hne he => hne (hinj he)
    refine ⟨?_, ?_, ?_, ?_, ?_, ?_, ?_, ?_⟩
    · intro h2 h3 h4 h5 h6 h7 h8 hdiff
      apply key
      unfold hash_input
      by_cases hu : r1.source = "UBS"
      · rw [hash_parts_ubs r1 hu, hash_parts_ubs r2 (h3 ▸ hu),
          h2, h3, hpol h4, h5, h6]
        exact joinPipe_ne_mid [] _ hdiff
      · rw [hash_parts_cc r1 hu, hash_parts_cc r2 (fun hc => hu (h3.trans hc)),
          h2, h3, hpol h4, h7, h8]
        exact joinPipe_ne_mid [] _ hdiff
    · intro h1 h3 h4 h5 h6 h7 h8 hdiff
      apply key
      unfold hash_input
      by_cases hu : r1.source = "UBS"
      · rw [hash_parts_ubs r1 hu, hash_parts_ubs r2 (h3 ▸ hu),
          h1, h3, hpol h4, h5, h6]
        exact joinPipe_ne_mid [fp_date r2] _ hdiff
      · rw [hash_parts_cc r1 hu, hash_parts_cc r2 (fun hc => hu (h3.trans hc)),
          h1, h3, hpol h4, h7, h8]
        exact joinPipe_ne_mid [fp_date r2] _ hdiff
    · intro h1 h2 h4 hu1 hu2
      apply key
      unfold hash_input
      rw [hash_parts_ubs r1 hu1, hash_parts_cc r2 (by rw [hu2]; decide),
        h1, h2, hpol h4, hu1, hu2]
      exact joinPipe_src_ne _ _ _ _ _ _ _ _
    · intro h1 h2 h3 h5 h6 h7 h8 hdiff
      apply key
      unfold hash_input
      have hpne : (if r1.is_credit then "credit" else "debit") ≠
          (if r2.is_credit then "credit" else "debit") := by
        cases hc1 : r1.is_credit <;> cases hc2 : r2.is_credit <;> simp_all
      by_cases hu : r1.source = "UBS"
      · rw [hash_parts_ubs r1 hu, hash_parts_ubs r2 (h3 ▸ hu),
          h1, h2, h3, h5, h6]
        exact joinPipe_ne_mid [fp_date r2, fp_amount r2, r2.source] _ hpne
      · rw [hash_parts_cc r1 hu, hash_parts_cc r2 (fun hc => hu (h3.trans hc)),
          h1, h2, h3, h7, h8]
        exact joinPipe_ne_mid [fp_date r2, fp_amount r2, r2.source] _ hpne
    · intro h1 h2 hu1 hu2 h4 h6 hdiff
      apply key
      unfold hash_input
      rw [hash_parts_ubs r1 hu1, hash_parts_ubs r2 hu2,
        h1, h2, hu1, hu2, hpol h4, h6]
      exact joinPipe_ne_mid
        [fp_date r2, fp_amount r2, "UBS",
         if r2.is_credit then "credit" else "debit"] _ hdiff
    · intro h1 h2 hu1 hu2 h4 h5 hdiff
      apply key
      unfold hash_input
      rw [hash_parts_ubs r1 hu1, hash_parts_ubs r2 hu2,
        h1, h2, hu1, hu2, hpol h4, h5]
      exact joinPipe_ne_mid
        [fp_date r2, fp_amount r2, "UBS",
         if r2.is_credit then "credit" else "debit", fp_desc1 r2] _ hdiff
    · intro h1 h2 h3 hu h4 h8 hdiff
      apply key
      unfold hash_input
      rw [hash_parts_cc r1 hu, hash_parts_cc r2 (fun hc => hu (h3.trans hc)),
        h1, h2, h3, hpol h4, h8]
      exact joinPipe_ne_mid
        [fp_date r2, fp_amount r2, r2.source,
         if r2.is_credit then "credit" else "debit"] _ hdiff
    · intro h1 h2 h3 hu h4 h7 hdiff
      apply key
      unfold hash_input
      rw [hash_parts_cc r1 hu, hash_parts_cc r2 (fun hc => hu (h3.trans hc)),
        h1, h2, h3, hpol h4, h7]
      exact joinPipe_ne_mid
        [fp_date r2, fp_amount r2, r2.source,
         if r2.is_credit then "credit" else "debit", fp_sector r2] _ hdiff

/-- A concrete ledger row. -/
def raw_w1 : RawTransaction :=
  { date := ⟨2024, 3, 7⟩, amount := 10, is_credit := false,
    description := "coop pronto | aaa", source := "UBS",
    raw_data := [("description1", "coop pronto"), ("transaction no.", "42"),
                 ("description2", "aaa")] }

/-- The same derived fingerprint fields as `raw_w1`, but different other
fields (description, extra raw columns). -/
def raw_w2 : RawTransaction :=
  { date := ⟨2024, 3, 7⟩, amount := 10, is_credit := false,
    description := "something else entirely", source := "UBS",
    raw_data := [("description1", "coop pronto"), ("transaction no.", "42"),
                 ("description2", "bbb"), ("balance", "77")] }

/-- Same as `raw_w1` except for the polarity flag. -/
def raw_w3 : RawTransaction :=
  { date := ⟨2024, 3, 7⟩, amount := 10, is_credit := true,
    description := "coop pronto | aaa", source := "UBS",
    raw_data := [("description1", "coop pronto"), ("transaction no.", "42"),
                 ("description2", "aaa")] }

theorem fingerprint_stability_witness :
    generate_hash id raw_w1 = generate_hash id raw_w2 ∧
    generate_hash id raw_w1 ≠ generate_hash id raw_w3 :=
  ⟨(fingerprint_stability id raw_w1 raw_w2).1 rfl rfl rfl rfl (by decide) (by decide)
      (by decide) (by decide),
   ((fingerprint_stability id raw_w1 raw_w3).2 (fun _ _ hab => hab)).2.2.2.1
      rfl rfl rfl (by decide) (by decide) (by decide) (by decide) (by decide)⟩

/-! ## Loader and idempotent ingestion -/

lemma load_go_hashes :
    ∀ (ts : List TransformedTransaction) (rows : List TransactionRow)
      (hashes : List String) (i k : Nat),
      (∀ s, s ∈ hashes ↔ s ∈ rows.map (fun r => r.transaction_hash)) →
      (∀ s, s ∈ (load_go rows hashes i k ts).2.1 ↔
        s ∈ (load_go rows hashes i k ts).1.map (fun r => r.transaction_hash)) ∧
      (∀ t ∈ ts, t.transaction_hash ∈
        (load_go rows hashes i k ts).1.map (fun r => r.transaction_hash)) ∧
      (∀ s ∈ hashes, s ∈ (load_go rows hashes i k ts).2.1)
  | [], rows, hashes, i, k, hinv => by
    refine ⟨fun s => ?_, by simp, fun s hs => ?_⟩
    · simpa [load_go] using hinv s
    · simpa [load_go] using hs
  | t :: ts, rows, hashes, i, k, hinv => by
    by_cases ht : t.transaction_hash ∈ hashes
    · have ih := load_go_hashes ts rows hashes i (k + 1) hinv
      simp only [load_go, if_pos ht]
      refine ⟨ih.1, ?_, ih.2.2⟩
      intro u hu
      rcases List.mem_cons.mp hu with rfl | hu
      · exact (ih.1 _).mp (ih.2.2 _ ht)
      · exact ih.2.1 u hu
    · have hinv' : ∀ s, s ∈ t.transaction_hash :: hashes ↔
          s ∈ (rows ++ [mkTransactionRow t]).map (fun r => r.transaction_hash) := by
        intro s
        simp only [List.mem_cons, List.map_append, List.mem_append, hinv s]
        simp [mkTransactionRow, or_comm]
      have ih := load_go_hashes ts (rows ++ [mkTransactionRow t])
        (t.transaction_hash :: hashes) (i + 1) k hinv'
      simp only [load_go, if_neg ht]
      refine ⟨ih.1, ?_, fun s hs => ih.2.2 s (List.mem_cons_of_mem _ hs)⟩
      intro u hu
      rcases List.mem_cons.mp hu with rfl | hu
      · exact (ih.1 _).mp (ih.2.2 _ (List.mem_cons_self _ _))
      · exact ih.2.1 u hu

lemma load_go_all_dup :
    ∀ (ts : List TransformedTransaction) (rows : List TransactionRow)
      (hashes : List String) (i k : Nat),
      (∀ t ∈ ts, t.transaction_hash ∈ hashes) →
      load_go rows hashes i k ts = (rows, hashes, i, k + ts.length)
  | [], rows, hashes, i, k, _ => by simp [load_go]
  | t :: ts, rows, hashes, i, k, hall => by
    have ht : t.transaction_hash ∈ hashes := hall t (by simp)
    rw [load_go, if_pos ht,
      load_go_all_dup ts rows hashes i (k + 1) (fun u hu => hall u (by simp [hu]))]
    simp only [List.length_cons, Prod.mk.injEq, true_and]
    omega

lemma load_mem_hashes (db : List TransactionRow) (ts : List TransformedTransaction) :
    ∀ t ∈ ts, t.transaction_hash ∈ (load db ts).1.map (fun r => r.transaction_hash) := by
  have := load_go_hashes ts db (get_existing_hashes db) 0 0
    (fun s => by simp [get_existing_hashes])
  exact this.2.1

lemma load_all_dup (db : List TransactionRow) (ts : List TransformedTransaction)
    (hall : ∀ t ∈ ts, t.transaction_hash ∈ db.map (fun r => r.transaction_hash)) :
    load db ts = (db, { total := ts.length, inserted := 0,
                        skipped := ts.length, errors := 0 }) := by
  unfold load
  rw [load_go_all_dup ts db (get_existing_hashes db) 0 0
    (fun t here => by simpa [get_existing_hashes] using hall t here)]
  simp

lemma is_processed_mark (pf : List ProcessedFileRow) (f ft : String) (n : Nat) :
    is_processed (mark_processed pf f ft n) f = true := by
  unfold mark_processed
  by_cases hc : pf.any (fun r => decide (r.filename = f))
  · rw [if_pos hc]
    simpa [is_processed] using hc
  · rw [if_neg hc]
    simp [is_processed]

/-- **C1.** Ingestion is idempotent: after a first run on a fresh file, a
second run with `force := false` is a no-op (the processed-file marker makes
it skip), and a second run with `force := true` re-extracts and re-classifies
but the fingerprint check inserts zero rows and leaves the store unchanged. -/
theorem ingestion_idempotent (h : String → String)
    (rules : List CategorizationRule) (now : Date) (st : PipelineState)
    (filename file_type : String) (raws : List RawTransaction)
    (hfresh : is_processed st.processed_files filename = false) :
    (process_files h rules now
        (process_files h rules now st filename file_type raws false).1
        filename file_type raws false =
      ((process_files h rules now st filename file_type raws false).1, none)) ∧
    ((process_files h rules now
        (process_files h rules now st filename file_type raws false).1
        filename file_type raws true).1.transactions =
      (process_files h rules now st filename file_type raws false).1.transactions) ∧
    ((process_files h rules now
        (process_files h rules now st filename file_type raws false).1
        filename file_type raws true).2 =
      some { total := (validate now (transform h rules (some filename) raws)).1.length,
             inserted := 0,
             skipped := (validate now (transform h rules (some filename) raws)).1.length,
             errors := 0 }) := by
  have hrun1 : process_files h rules now st filename file_type raws false =
      (({ transactions :=
            (load st.transactions
              (validate now (transform h rules (some filename) raws)).1).1,
          processed_files :=
            mark_processed st.processed_files filename file_type
              (validate now (transform h rules (some filename) raws)).1.length } :
          PipelineState),
        some (load st.transactions
          (validate now (transform h rules (some filename) raws)).1).2) := by
    unfold process_files process_one_file
    rw [hfresh]
    simp
  refine ⟨?_, ?_⟩
  · rw [hrun1]
    unfold process_files
    rw [is_processed_mark]
    simp
  · rw [hrun1]
    unfold process_files process_one_file
    simp only [Bool.true_or, if_pos]
    rw [load_all_dup _ _ (load_mem_hashes st.transactions _)]
    simp

/-- A one-row statement file over the empty store. -/
def fresh_state : PipelineState := { transactions := [], processed_files := [] }

theorem ingestion_idempotent_witness :
    is_processed fresh_state.processed_files "march.csv" = false ∧
    (process_files id [] ⟨2025, 1, 1⟩
        (process_files id [] ⟨2025, 1, 1⟩ fresh_state "march.csv" "UBS" [raw_w1]
          false).1 "march.csv" "UBS" [raw_w1] false =
      ((process_files id [] ⟨2025, 1, 1⟩ fresh_state "march.csv" "UBS" [raw_w1]
          false).1, none)) ∧
    ((process_files id [] ⟨2025, 1, 1⟩
        (process_files id [] ⟨2025, 1, 1⟩ fresh_state "march.csv" "UBS" [raw_w1]
          false).1 "march.csv" "UBS" [raw_w1] true).1.transactions =
      (process_files id [] ⟨2025, 1, 1⟩ fresh_state "march.csv" "UBS" [raw_w1]
          false).1.transactions) :=
  ⟨rfl,
   (ingestion_idempotent id [] ⟨2025, 1, 1⟩ fresh_state "march.csv" "UBS"
      [raw_w1] rfl).1,
   (ingestion_idempotent id [] ⟨2025, 1, 1⟩ fresh_state "march.csv" "UBS"
      [raw_w1] rfl).2.1⟩

/-! ## Budget fan-out / fan-in -/

def mkBudgetRow (uid : Nat) (ty cat : String) (year : Int) (mo : Option Nat)
    (amt : ℚ) : BudgetRow :=
  { user_id := uid, year := year, month := mo, type := ty, category := cat,
    amount := amt }

/-- The stored rows carrying one full budget key, in storage order. -/
def budget_rows (db : List BudgetRow) (uid : Nat) (ty cat : String) (year : Int)
    (mo : Option Nat) : List BudgetRow :=
  db.filter (fun r => decide (budgetKeyMatch uid ty cat year mo r))

/-- The `all_monthly` query of `create_budget`: the key's rows with a
non-null month. -/
def monthly_key_rows (db : List BudgetRow) (uid : Nat) (ty cat : String)
    (year : Int) : List BudgetRow :=
  db.filter (fun r => decide (r.user_id = uid ∧ r.type = ty ∧ r.category = cat ∧
    r.year = year ∧ r.month ≠ none))

lemma upsert_eq_mk {uid : Nat} {ty cat : String} {year : Int} {mo : Option Nat}
    {amt : ℚ} {r : BudgetRow} (h : budgetKeyMatch uid ty cat year mo r) :
    ({ r with amount := amt } : BudgetRow) = mkBudgetRow uid ty cat year mo amt := by
  obtain ⟨h1, h2, h3, h4, h5⟩ := h
  cases r
  simp_all [mkBudgetRow]

lemma keyMatch_set_amount {uid : Nat} {ty cat : String} {year : Int}
    {mo : Option Nat} {amt : ℚ} {r : BudgetRow} :
    budgetKeyMatch uid ty cat year mo ({ r with amount := amt }) ↔
      budgetKeyMatch uid ty cat year mo r := Iff.rfl

lemma budget_rows_upsert_same (uid : Nat) (ty cat : String) (year : Int)
    (mo : Option Nat) (amt : ℚ) :
    ∀ db : List BudgetRow,
      budget_rows (upsert_budget uid ty cat year mo amt db) uid ty cat year mo =
        mkBudgetRow uid ty cat year mo amt ::
          (budget_rows db uid ty cat year mo).tail
  | [] => by
    simp [upsert_budget, budget_rows, mkBudgetRow, budgetKeyMatch]
  | r :: rs => by
    have hmk : decide (budgetKeyMatch uid ty cat year mo
        (mkBudgetRow uid ty cat year mo amt)) = true := by
      simp [mkBudgetRow, budgetKeyMatch]
    by_cases hk : budgetKeyMatch uid ty cat year mo r
    · simp only [upsert_budget, if_pos hk]
      rw [upsert_eq_mk hk]
      unfold budget_rows
      rw [List.filter_cons, List.filter_cons, hmk]
      have hd2 : decide (budgetKeyMatch uid ty cat year mo r) = true := by
        simpa using hk
      rw [hd2]
      simp
    · simp only [upsert_budget, if_neg hk]
      unfold budget_rows
      rw [List.filter_cons]
      have hd2 : decide (budgetKeyMatch uid ty cat year mo r) = false := by
        simpa using hk
      rw [hd2]
      simp only [Bool.false_eq_true, if_false]
      have ih := budget_rows_upsert_same uid ty cat year mo amt rs
      unfold budget_rows at ih
      rw [ih, List.filter_cons, hd2]
      simp

lemma budget_rows_upsert_other {uid uid' : Nat} {ty cat ty' cat' : String}
    {year year' : Int} {mo mo' : Option Nat} (amt : ℚ)
    (hne : ¬ (uid' = uid ∧ ty' = ty ∧ cat' = cat ∧ year' = year ∧ mo' = mo)) :
    ∀ db : List BudgetRow,
      budget_rows (upsert_budget uid ty cat year mo amt db) uid' ty' cat' year' mo' =
        budget_rows db uid' ty' cat' year' mo'
  | [] => by
    unfold budget_rows upsert_budget
    have hmk : decide (budgetKeyMatch uid' ty' cat' year' mo'
        (mkBudgetRow uid ty cat year mo amt)) = false := by
      simp only [decide_eq_false_iff_not]
      intro hB
      obtain ⟨h1, h2, h3, h4, h5⟩ := hB
      exact hne ⟨h1.symm, h2.symm, h3.symm, h4.symm, h5.symm⟩
    rw [List.filter_cons]
    simp only [mkBudgetRow] at hmk
    rw [hmk]
    simp
  | r :: rs => by
    by_cases hk : budgetKeyMatch uid ty cat year mo r
    · have hne' : ¬ budgetKeyMatch uid' ty' cat' year' mo' r := by
        intro hB
        obtain ⟨h1, h2, h3, h4, h5⟩ := hB
        obtain ⟨g1, g2, g3, g4, g5⟩ := hk
        exact hne ⟨h1.symm.trans g1, h2.symm.trans g2, h3.symm.trans g3,
          h4.symm.trans g4, h5.symm.trans g5⟩
      have hd1 : decide (budgetKeyMatch uid' ty' cat' year' mo'
          ({ r with amount := amt })) = false := by
        simpa [keyMatch_set_amount] using hne'
      have hd2 : decide (budgetKeyMatch uid' ty' cat' year' mo' r) = false := by
        simpa using hne'
      simp only [upsert_budget, if_pos hk]
      unfold budget_rows
      rw [List.filter_cons, List.filter_cons, hd1, hd2]
      simp
    · simp only [upsert_budget, if_neg hk]
      unfold budget_rows
      rw [List.filter_cons, List.filter_cons]
      have ih := budget_rows_upsert_other amt hne rs
      unfold budget_rows at ih
      rcases hd : decide (budgetKeyMatch uid' ty' cat' year' mo' r) with _ | _ <;>
        simp [ih]

lemma upsert_mem {uid : Nat} {ty cat : String} {year : Int} {mo : Option Nat}
    {amt : ℚ} {r' : BudgetRow} :
    ∀ {db : List BudgetRow}, r' ∈ upsert_budget uid ty cat year mo amt db →
      r' ∈ db ∨ budgetKeyMatch uid ty cat year mo r'
  | [], hmem => by
    simp only [upsert_budget, List.mem_singleton] at hmem
    subst hmem
    exact Or.inr ⟨rfl, rfl, rfl, rfl, rfl⟩
  | r :: rs, hmem => by
    by_cases hk : budgetKeyMatch uid ty cat year mo r
    · rw [upsert_budget, if_pos hk] at hmem
      rcases List.mem_cons.mp hmem with rfl | hmem
      · obtain ⟨h1, h2, h3, h4, h5⟩ := hk
        exact Or.inr ⟨h1, h2, h3, h4, h5⟩
      · exact Or.inl (List.mem_cons_of_mem _ hmem)
    · rw [upsert_budget, if_neg hk] at hmem
      rcases List.mem_cons.mp hmem with rfl | hmem
      · exact Or.inl (List.mem_cons_self _ _)
      · rcases upsert_mem hmem with hin | hkey
        · exact Or.inl (List.mem_cons_of_mem _ hin)
        · exact Or.inr hkey

lemma sum_map_bump {α : Type} [DecidableEq α] :
    ∀ (ms : List α) (m₀ : α) (f g : α → Nat), ms.Nodup → m₀ ∈ ms →
      (∀ m ∈ ms, g m = if m = m₀ then f m + 1 else f m) →
      (ms.map g).sum = (ms.map f).sum + 1
  | [], _, _, _, _, hmem, _ => absurd hmem (List.not_mem_nil _)
  | m :: ms, m₀, f, g, hnd, hmem, hg => by
    rcases List.mem_cons.mp hmem with heq | hmem'
    · have hgm : g m = f m + 1 := by
        have hh := hg m (by simp)
        rw [if_pos heq.symm] at hh
        exact hh
      have hrest : ms.map g = ms.map f := by
        apply List.map_congr_left
        intro u hu
        have hne : ¬ (u = m₀) := fun he =>
          (List.nodup_cons.mp hnd).1 ((he.trans heq) ▸ hu)
        have hh := hg u (by simp [hu])
        rw [if_neg hne] at hh
        exact hh
      simp only [List.map_cons, List.sum_cons, hgm, hrest]
      omega
    · have hne : ¬ (m = m₀) := fun he =>
        (List.nodup_cons.mp hnd).1 (he ▸ hmem')
      have hgm : g m = f m := by
        have hh := hg m (by simp)
        rw [if_neg hne] at hh
        exact hh
      have ih := sum_map_bump ms m₀ f g (List.nodup_cons.mp hnd).2 hmem'
        (fun u hu => hg u (by simp [hu]))
      simp only [List.map_cons, List.sum_cons, hgm, ih]
      omega

lemma sum_le_length :
    ∀ (ms : List Nat) (f : Nat → Nat), (∀ m ∈ ms, f m ≤ 1) →
      (ms.map f).sum ≤ ms.length
  | [], _, _ => by simp
  | m :: ms, f, hle => by
    have h1 : f m ≤ 1 := hle m (by simp)
    have h2 := sum_le_length ms f (fun v hv => hle v (by simp [hv]))
    simp only [List.map_cons, List.sum_cons, List.length_cons]
    omega

lemma sum_all_le_one :
    ∀ (ms : List Nat) (f : Nat → Nat), (∀ m ∈ ms, f m ≤ 1) →
      (((ms.map f).sum = ms.length) ↔ ∀ m ∈ ms, f m = 1)
  | [], f, _ => by simp
  | m :: ms, f, hle => by
    have hm : f m ≤ 1 := hle m (by simp)
    have hsum := sum_le_length ms f (fun v hv => hle v (by simp [hv]))
    have ih := sum_all_le_one ms f (fun v hv => hle v (by simp [hv]))
    simp only [List.map_cons, List.sum_cons, List.length_cons]
    constructor
    · intro he
      have hfm : f m = 1 ∧ (ms.map f).sum = ms.length := by omega
      intro v hv
      rcases List.mem_cons.mp hv with rfl | hv'
      · exact hfm.1
      · exact (ih.mp hfm.2) v hv'
    · intro hall
      have h1 : f m = 1 := hall m (by simp)
      have h2 : (ms.map f).sum = ms.length :=
        ih.mpr (fun v hv => hall v (by simp [hv]))
      omega

/-- Counting monthly key rows by partitioning over the twelve months: valid
when every monthly row of the key carries a month in 1..12. -/
lemma monthly_count_partition :
    ∀ (db : List BudgetRow) (uid : Nat) (ty cat : String) (year : Int),
      (∀ r ∈ db, r.user_id = uid → r.type = ty → r.category = cat →
        r.year = year → ∀ m, r.month = some m → m ∈ List.range' 1 12) →
      (monthly_key_rows db uid ty cat year).length =
        ((List.range' 1 12).map
          (fun m => (budget_rows db uid ty cat year (some m)).length)).sum
  | [], uid, ty, cat, year, _ => by
    simp [monthly_key_rows, budget_rows]
  | r :: rs, uid, ty, cat, year, hm => by
    have ih := monthly_count_partition rs uid ty cat year
      (fun u hu => hm u (by simp [hu]))
    by_cases hP : r.user_id = uid ∧ r.type = ty ∧ r.category = cat ∧
        r.year = year ∧ r.month ≠ none
    · obtain ⟨h1, h2, h3, h4, h5⟩ := hP
      rcases hmo : r.month with _ | m₀
      · exact absurd hmo h5
      have hm₀ : m₀ ∈ List.range' 1 12 := hm r (by simp) h1 h2 h3 h4 m₀ hmo
      have hL : (monthly_key_rows (r :: rs) uid ty cat year).length =
          (monthly_key_rows rs uid ty cat year).length + 1 := by
        unfold monthly_key_rows
        rw [List.filter_cons]
        have hd : decide (r.user_id = uid ∧ r.type = ty ∧ r.category = cat ∧
            r.year = year ∧ r.month ≠ none) = true := by
          simp [h1, h2, h3, h4, h5]
        rw [hd]
        simp
      have hbump := sum_map_bump (List.range' 1 12) m₀
        (fun m => (budget_rows rs uid ty cat year (some m)).length)
        (fun m => (budget_rows (r :: rs) uid ty cat year (some m)).length)
        (by decide) hm₀ ?_
      · rw [hL, ih, hbump]
      · intro m _
        unfold budget_rows
        beta_reduce
        rw [List.filter_cons]
        by_cases hmm : m = m₀
        · subst hmm
          have hd : decide (budgetKeyMatch uid ty cat year (some m) r) = true := by
            simp [budgetKeyMatch, h1, h2, h3, h4, hmo]
          rw [hd]
          simp
        · have hd : decide (budgetKeyMatch uid ty cat year (some m) r) = false := by
            simp only [decide_eq_false_iff_not]
            intro hB
            exact hmm (by
              have := hB.2.2.2.2
              rw [hmo] at this
              exact (Option.some.injEq _ _).mp this.symm)
          rw [hd]
          simp [hmm]
    · have hL : monthly_key_rows (r :: rs) uid ty cat year =
          monthly_key_rows rs uid ty cat year := by
        unfold monthly_key_rows
        rw [List.filter_cons]
        have hd : decide (r.user_id = uid ∧ r.type = ty ∧ r.category = cat ∧
            r.year = year ∧ r.month ≠ none) = false := by
          simpa using hP
        rw [hd]
        simp
      have hmap : (List.range' 1 12).map
            (fun m => (budget_rows (r :: rs) uid ty cat year (some m)).length) =
          (List.range' 1 12).map
            (fun m => (budget_rows rs uid ty cat year (some m)).length) := by
        apply List.map_congr_left
        intro m _
        unfold budget_rows
        rw [List.filter_cons]
        have hd : decide (budgetKeyMatch uid ty cat year (some m) r) = false := by
          simp only [decide_eq_false_iff_not]
          intro hB
          exact hP ⟨hB.1, hB.2.1, hB.2.2.1, hB.2.2.2.1, by simp [hB.2.2.2.2]⟩
        rw [hd]
        simp
      rw [hL, ih, hmap]

lemma fold_upsert_other (uid : Nat) (ty cat : String) (year : Int) (amt : ℚ)
    (mo' : Option Nat) :
    ∀ (ms : List Nat) (dbx : List BudgetRow), (∀ k ∈ ms, mo' ≠ some k) →
      budget_rows
        (ms.foldl (fun d k => upsert_budget uid ty cat year (some k) amt d) dbx)
        uid ty cat year mo' = budget_rows dbx uid ty cat year mo'
  | [], dbx, _ => rfl
  | k :: ms, dbx, hk => by
    rw [List.foldl_cons,
      fold_upsert_other uid ty cat year amt mo' ms _
        (fun u hu => hk u (by simp [hu])),
      budget_rows_upsert_other amt
        (fun hB => (hk k (by simp)) hB.2.2.2.2)]

lemma upsert_le_one {uid : Nat} {ty cat : String} {year : Int}
    (mo : Option Nat) (amt : ℚ) (db : List BudgetRow) (m' : Option Nat)
    (h : (budget_rows db uid ty cat year m').length ≤ 1) :
    (budget_rows (upsert_budget uid ty cat year mo amt db)
      uid ty cat year m').length ≤ 1 := by
  by_cases he : m' = mo
  · subst he
    rw [budget_rows_upsert_same]
    simp only [List.length_cons, List.length_tail]
    omega
  · rw [budget_rows_upsert_other amt (fun hB => he hB.2.2.2.2)]
    exact h

lemma fold_upsert_mem_eq (uid : Nat) (ty cat : String) (year : Int) (amt : ℚ)
    (m : Nat) :
    ∀ (ms : List Nat) (dbx : List BudgetRow), m ∈ ms →
      (∀ m' : Nat, (budget_rows dbx uid ty cat year (some m')).length ≤ 1) →
      budget_rows
        (ms.foldl (fun d k => upsert_budget uid ty cat year (some k) amt d) dbx)
        uid ty cat year (some m) = [mkBudgetRow uid ty cat year (some m) amt]
  | [], _, hmem, _ => absurd hmem (List.not_mem_nil _)
  | k :: ms, dbx, hmem, hu => by
    rw [List.foldl_cons]
    have hu' : ∀ m', (budget_rows (upsert_budget uid ty cat year (some k) amt dbx)
        uid ty cat year (some m')).length ≤ 1 :=
      fun m' => upsert_le_one (some k) amt dbx (some m') (hu m')
    by_cases hmem' : m ∈ ms
    · exact fold_upsert_mem_eq uid ty cat year amt m ms _ hmem' hu'
    · have hmk : m = k := by
        rcases List.mem_cons.mp hmem with h | h
        · exact h
        · exact absurd h hmem'
      subst hmk
      have hnot : ∀ u ∈ ms, (some m : Option Nat) ≠ some u := by
        intro u hu₂ he
        apply hmem'
        rw [(Option.some.injEq _ _).mp he]
        exact hu₂
      rw [fold_upsert_other uid ty cat year amt (some m) ms _ hnot,
        budget_rows_upsert_same]
      have htail : (budget_rows dbx uid ty cat year (some m)).tail = [] := by
        have hlen : (budget_rows dbx uid ty cat year (some m)).tail.length = 0 := by
          rw [List.length_tail]
          have := hu m
          omega
        exact List.length_eq_zero.mp hlen
      rw [htail]

lemma fold_upsert_mem_src (uid : Nat) (ty cat : String) (year : Int) (amt : ℚ) :
    ∀ (ms : List Nat) (dbx : List BudgetRow) (r' : BudgetRow),
      r' ∈ ms.foldl (fun d k => upsert_budget uid ty cat year (some k) amt d) dbx →
      r' ∈ dbx ∨ ∃ k ∈ ms, budgetKeyMatch uid ty cat year (some k) r'
  | [], _, _, hmem => Or.inl hmem
  | k :: ms, dbx, r', hmem => by
    rw [List.foldl_cons] at hmem
    rcases fold_upsert_mem_src uid ty cat year amt ms _ r' hmem with hin | ⟨u, hu, hkey⟩
    · rcases upsert_mem hin with hin' | hkey
      · exact Or.inl hin'
      · exact Or.inr ⟨k, by simp, hkey⟩
    · exact Or.inr ⟨u, by simp [hu], hkey⟩

/-- **C3.** Yearly fan-out: a yearly upsert with auto-populate leaves, for
that key, exactly 12 monthly rows, one per month 1..12, each holding the
yearly amount divided by 12 — pre-existing monthly amounts are overwritten
unconditionally — and the yearly row itself holds the yearly amount. -/
theorem budget_fanout (db : List BudgetRow) (uid : Nat) (ty cat : String)
    (year : Int) (A : ℚ)
    (hm : ∀ r ∈ db, r.user_id = uid → r.type = ty → r.category = cat →
      r.year = year → ∀ m, r.month = some m → m ∈ List.range' 1 12)
    (hu : ∀ m : Nat, (budget_rows db uid ty cat year (some m)).length ≤ 1)
    (hy : (budget_rows db uid ty cat year none).length ≤ 1) :
    (∀ m ∈ List.range' 1 12,
      budget_rows (create_budget uid ⟨ty, cat, year, none, A⟩ true db)
        uid ty cat year (some m) =
        [mkBudgetRow uid ty cat year (some m) (A / 12)]) ∧
    (monthly_key_rows (create_budget uid ⟨ty, cat, year, none, A⟩ true db)
        uid ty cat year).length = 12 ∧
    budget_rows (create_budget uid ⟨ty, cat, year, none, A⟩ true db)
        uid ty cat year none = [mkBudgetRow uid ty cat year none A] := by
  have hdb2 : create_budget uid ⟨ty, cat, year, none, A⟩ true db =
      (List.range' 1 12).foldl
        (fun d k => upsert_budget uid ty cat year (some k) (A / 12) d)
        (upsert_budget uid ty cat year none A db) := rfl
  have hu1 : ∀ m' : Nat,
      (budget_rows (upsert_budget uid ty cat year none A db)
        uid ty cat year (some m')).length ≤ 1 :=
    fun m' => upsert_le_one none A db (some m') (hu m')
  have hmonth : ∀ m ∈ List.range' 1 12,
      budget_rows (create_budget uid ⟨ty, cat, year, none, A⟩ true db)
        uid ty cat year (some m) =
        [mkBudgetRow uid ty cat year (some m) (A / 12)] := by
    intro m hmem
    rw [hdb2]
    exact fold_upsert_mem_eq uid ty cat year (A / 12) m _ _ hmem hu1
  refine ⟨hmonth, ?_, ?_⟩
  · have hm2 : ∀ r ∈ create_budget uid ⟨ty, cat, year, none, A⟩ true db,
        r.user_id = uid → r.type = ty → r.category = cat → r.year = year →
        ∀ m, r.month = some m → m ∈ List.range' 1 12 := by
      intro r hr _ _ _ _ m hmo
      rw [hdb2] at hr
      rcases fold_upsert_mem_src uid ty cat year (A / 12) _ _ r hr with hin | ⟨k, hk, hkey⟩
      · rcases upsert_mem hin with hin' | hkey
        · exact hm r hin' (by assumption) (by assumption) (by assumption)
            (by assumption) m hmo
        · rw [hkey.2.2.2.2] at hmo
          cases hmo
      · have hkm : k = m := by
          have hsome : some k = some m := (hkey.2.2.2.2).symm.trans hmo
          exact (Option.some.injEq _ _).mp hsome
        exact hkm ▸ hk
    rw [monthly_count_partition _ uid ty cat year hm2]
    have hmap : (List.range' 1 12).map
          (fun m => (budget_rows (create_budget uid ⟨ty, cat, year, none, A⟩ true db)
            uid ty cat year (some m)).length) =
        (List.range' 1 12).map (fun _ => 1) :=
      List.map_congr_left (fun m hmem => by rw [hmonth m hmem]; rfl)
    rw [hmap]
    decide
  · rw [hdb2,
      fold_upsert_other uid ty cat year (A / 12) none _ _ (fun u _ => by simp),
      budget_rows_upsert_same]
    have htail : (budget_rows db uid ty cat year none).tail = [] := by
      have hlen : (budget_rows db uid ty cat year none).tail.length = 0 := by
        rw [List.length_tail]
        omega
      exact List.length_eq_zero.mp hlen
    rw [htail]

/-- A pre-existing monthly row that the fan-out must overwrite. -/
def fanout_db : List BudgetRow :=
  [{ user_id := 1, year := 2024, month := some 4, type := "Expenses",
     category := "Rent", amount := 999 }]

theorem budget_fanout_witness :
    (∀ m ∈ List.range' 1 12,
      budget_rows (create_budget 1 ⟨"Expenses", "Rent", 2024, none, 1200⟩ true fanout_db)
        1 "Expenses" "Rent" 2024 (some m) =
        [mkBudgetRow 1 "Expenses" "Rent" 2024 (some m) (1200 / 12)]) ∧
    (monthly_key_rows (create_budget 1 ⟨"Expenses", "Rent", 2024, none, 1200⟩ true fanout_db)
        1 "Expenses" "Rent" 2024).length = 12 ∧
    budget_rows (create_budget 1 ⟨"Expenses", "Rent", 2024, none, 1200⟩ true fanout_db)
        1 "Expenses" "Rent" 2024 none = [mkBudgetRow 1 "Expenses" "Rent" 2024 none 1200] :=
  budget_fanout fanout_db 1 "Expenses" "Rent" 2024 1200 (by decide)
    (fun m => le_trans (List.length_filter_le _ _) (by decide)) (by decide)

lemma length_one_iff_ne_nil {α : Type} {l : List α} (h : l.length ≤ 1) :
    l.length = 1 ↔ l ≠ [] := by
  cases l <;> simp_all

/-- **C4.** Monthly fan-in: after a monthly upsert with auto-populate, the
yearly row for the same key is set to the sum of the monthly rows exactly
when all 12 monthly rows then exist; with fewer than 12, nothing beyond the
monthly upsert happens and the yearly rows are untouched. -/
theorem budget_fanin (db : List BudgetRow) (uid : Nat) (ty cat : String)
    (year : Int) (A : ℚ) (m₀ : Nat)
    (hm₀ : m₀ ∈ List.range' 1 12)
    (hm : ∀ r ∈ db, r.user_id = uid → r.type = ty → r.category = cat →
      r.year = year → ∀ m, r.month = some m → m ∈ List.range' 1 12)
    (hu : ∀ m : Nat, (budget_rows db uid ty cat year (some m)).length ≤ 1)
    (hy : (budget_rows db uid ty cat year none).length ≤ 1) :
    ((∀ m ∈ List.range' 1 12,
        budget_rows (upsert_budget uid ty cat year (some m₀) A db)
          uid ty cat year (some m) ≠ []) →
      budget_rows (create_budget uid ⟨ty, cat, year, some m₀, A⟩ true db)
          uid ty cat year none =
        [mkBudgetRow uid ty cat year none
          (((monthly_key_rows (upsert_budget uid ty cat year (some m₀) A db)
              uid ty cat year).map (fun r => r.amount)).sum)] ∧
      (∀ mo : Nat,
        budget_rows (create_budget uid ⟨ty, cat, year, some m₀, A⟩ true db)
            uid ty cat year (some mo) =
          budget_rows (upsert_budget uid ty cat year (some m₀) A db)
            uid ty cat year (some mo))) ∧
    ((∃ m ∈ List.range' 1 12,
        budget_rows (upsert_budget uid ty cat year (some m₀) A db)
          uid ty cat year (some m) = []) →
      create_budget uid ⟨ty, cat, year, some m₀, A⟩ true db =
        upsert_budget uid ty cat year (some m₀) A db ∧
      budget_rows (create_budget uid ⟨ty, cat, year, some m₀, A⟩ true db)
          uid ty cat year none = budget_rows db uid ty cat year none) := by
  have hdb2 : create_budget uid ⟨ty, cat, year, some m₀, A⟩ true db =
      if (monthly_key_rows (upsert_budget uid ty cat year (some m₀) A db)
            uid ty cat year).length = 12 then
        upsert_budget uid ty cat year none
          (((monthly_key_rows (upsert_budget uid ty cat year (some m₀) A db)
              uid ty cat year).map (fun r => r.amount)).sum)
          (upsert_budget uid ty cat year (some m₀) A db)
      else upsert_budget uid ty cat year (some m₀) A db := rfl
  have hm1 : ∀ r ∈ upsert_budget uid ty cat year (some m₀) A db,
      r.user_id = uid → r.type = ty → r.category = cat → r.year = year →
      ∀ m, r.month = some m → m ∈ List.range' 1 12 := by
    intro r hr g1 g2 g3 g4 m hmo
    rcases upsert_mem hr with hin | hkey
    · exact hm r hin g1 g2 g3 g4 m hmo
    · have hsome : some m₀ = some m := (hkey.2.2.2.2).symm.trans hmo
      rw [← (Option.some.injEq _ _).mp hsome]
      exact hm₀
  have hu1 : ∀ m : Nat,
      (budget_rows (upsert_budget uid ty cat year (some m₀) A db)
        uid ty cat year (some m)).length ≤ 1 :=
    fun m => upsert_le_one (some m₀) A db (some m) (hu m)
  have hy1 : budget_rows (upsert_budget uid ty cat year (some m₀) A db)
      uid ty cat year none = budget_rows db uid ty cat year none :=
    budget_rows_upsert_other A (fun hB => by cases hB.2.2.2.2) db
  have hpart := monthly_count_partition
    (upsert_budget uid ty cat year (some m₀) A db) uid ty cat year hm1
  have hiff := sum_all_le_one (List.range' 1 12)
    (fun m => (budget_rows (upsert_budget uid ty cat year (some m₀) A db)
      uid ty cat year (some m)).length)
    (fun m _ => hu1 m)
  constructor
  · intro hall
    have h12 : (monthly_key_rows (upsert_budget uid ty cat year (some m₀) A db)
        uid ty cat year).length = 12 := by
      rw [hpart]
      have hsum := hiff.mpr (fun m hmem =>
        (length_one_iff_ne_nil (hu1 m)).mpr (hall m hmem))
      rw [hsum]
      decide
    rw [hdb2, if_pos h12]
    constructor
    · rw [budget_rows_upsert_same, hy1]
      have htail : (budget_rows db uid ty cat year none).tail = [] := by
        have hlen : (budget_rows db uid ty cat year none).tail.length = 0 := by
          rw [List.length_tail]
          omega
        exact List.length_eq_zero.mp hlen
      rw [htail]
    · intro mo
      exact budget_rows_upsert_other _ (fun hB => by cases hB.2.2.2.2) _
  · intro ⟨m, hmem, hempty⟩
    have h12 : ¬ ((monthly_key_rows (upsert_budget uid ty cat year (some m₀) A db)
        uid ty cat year).length = 12) := by
      rw [hpart]
      intro habs
      have hsum : (List.map
          (fun m => (budget_rows (upsert_budget uid ty cat year (some m₀) A db)
            uid ty cat year (some m)).length) (List.range' 1 12)).sum =
          (List.range' 1 12).length := by
        rw [habs]
        decide
      have hone := hiff.mp hsum m hmem
      simp only [hempty, List.length_nil] at hone
      exact absurd hone (by decide)
    rw [hdb2, if_neg h12]
    exact ⟨rfl, hy1⟩

/-- The per-month uniqueness invariant follows from pairwise distinctness of
months within the key (the `(user, year, month, type, category)` unique
constraint), a decidable condition on a concrete store. -/
lemma month_unique_of_pairwise (db : List BudgetRow) (uid : Nat)
    (ty cat : String) (year : Int)
    (hpw : List.Pairwise (fun r1 r2 => ¬ (r1.user_id = uid ∧ r1.type = ty ∧
      r1.category = cat ∧ r1.year = year ∧ r2.user_id = uid ∧ r2.type = ty ∧
      r2.category = cat ∧ r2.year = year ∧ r1.month = r2.month)) db) :
    ∀ mo : Option Nat, (budget_rows db uid ty cat year mo).length ≤ 1 := by
  intro mo
  have hpf := hpw.filter (fun r => decide (budgetKeyMatch uid ty cat year mo r))
  rcases hl : budget_rows db uid ty cat year mo with _ | ⟨a, _ | ⟨b, t2⟩⟩
  · simp
  · simp
  · exfalso
    unfold budget_rows at hl
    rw [hl] at hpf
    have hab := (List.pairwise_cons.mp hpf).1 b (by simp)
    have ha : budgetKeyMatch uid ty cat year mo a := by
      have hmem : a ∈ List.filter
          (fun r => decide (budgetKeyMatch uid ty cat year mo r)) db := by
        rw [hl]; simp
      simpa using List.of_mem_filter hmem
    have hb : budgetKeyMatch uid ty cat year mo b := by
      have hmem : b ∈ List.filter
          (fun r => decide (budgetKeyMatch uid ty cat year mo r)) db := by
        rw [hl]; simp
      simpa using List.of_mem_filter hmem
    exact hab ⟨ha.1, ha.2.1, ha.2.2.1, ha.2.2.2.1, hb.1, hb.2.1, hb.2.2.1,
      hb.2.2.2.1, ha.2.2.2.2.trans hb.2.2.2.2.symm⟩

/-- Eleven stored monthly rows (months 1..11) of 50 each. -/
def fanin_db : List BudgetRow :=
  (List.range' 1 11).map
    (fun m => mkBudgetRow 1 "Savings" "Emergency" 2024 (some m) 50)

/-- Ten stored monthly rows (months 1..10) of 50 each. -/
def fanin_db10 : List BudgetRow :=
  (List.range' 1 10).map
    (fun m => mkBudgetRow 1 "Savings" "Emergency" 2024 (some m) 50)

theorem budget_fanin_witness :
    (budget_rows (create_budget 1 ⟨"Savings", "Emergency", 2024, some 12, 50⟩
          true fanin_db) 1 "Savings" "Emergency" 2024 none =
      [mkBudgetRow 1 "Savings" "Emergency" 2024 none
        (((monthly_key_rows
            (upsert_budget 1 "Savings" "Emergency" 2024 (some 12) 50 fanin_db)
            1 "Savings" "Emergency" 2024).map (fun r => r.amount)).sum)]) ∧
    (create_budget 1 ⟨"Savings", "Emergency", 2024, some 11, 50⟩ true fanin_db10 =
        upsert_budget 1 "Savings" "Emergency" 2024 (some 11) 50 fanin_db10 ∧
      budget_rows (create_budget 1 ⟨"Savings", "Emergency", 2024, some 11, 50⟩
          true fanin_db10) 1 "Savings" "Emergency" 2024 none =
        budget_rows fanin_db10 1 "Savings" "Emergency" 2024 none) :=
  ⟨((budget_fanin fanin_db 1 "Savings" "Emergency" 2024 50 12 (by decide)
      (by decide)
      (fun m => month_unique_of_pairwise fanin_db 1 "Savings" "Emergency" 2024
        (by decide) (some m))
      (month_unique_of_pairwise fanin_db 1 "Savings" "Emergency" 2024
        (by decide) none)).1 (by decide)).1,
   (budget_fanin fanin_db10 1 "Savings" "Emergency" 2024 50 11 (by decide)
      (by decide)
      (fun m => month_unique_of_pairwise fanin_db10 1 "Savings" "Emergency" 2024
        (by decide) (some m))
      (month_unique_of_pairwise fanin_db10 1 "Savings" "Emergency" 2024
        (by decide) none)).2 ⟨12, by decide, by decide⟩⟩

/-! ## Dashboard budget resolution -/

lemma find?_eq_head_filter {α : Type} (p : α → Bool) :
    ∀ l : List α, l.find? p = (l.filter p).head?
  | [] => rfl
  | a :: l => by
    rcases hp : p a with _ | _
    · rw [List.find?_cons_of_neg _ (by simp [hp]), List.filter_cons, hp]
      simp only [Bool.false_eq_true, if_false]
      exact find?_eq_head_filter p l
    · rw [List.find?_cons_of_pos _ hp, List.filter_cons, hp]
      simp

lemma opt_match_map (o : Option BudgetRow) (f : BudgetRow → ℚ) :
    (match o with
      | some b => some (f b)
      | none => (none : Option ℚ)) = o.map f := by
  cases o <;> rfl

lemma month_fold_eq (key : String × String) :
    ∀ (rows : List BudgetRow) (acc : (String × String) → Option ℚ),
      (rows.foldl
        (fun acc b => fun k =>
          if k = (b.type, b.category) then
            some (if b.month = none then b.amount / 12 else b.amount)
          else acc k)
        acc) key =
      match rows.reverse.find? (fun b => decide (key = (b.type, b.category))) with
      | some b => some (if b.month = none then b.amount / 12 else b.amount)
      | none => acc key
  | [], acc => rfl
  | b :: rows, acc => by
    rw [List.foldl_cons, month_fold_eq key rows, List.reverse_cons, List.find?_append]
    rcases hf : rows.reverse.find? (fun b => decide (key = (b.type, b.category)))
      with _ | r <;> rw [hf]
    · by_cases hk : key = (b.type, b.category)
      · rw [List.find?_cons_of_pos _ (by simp [hk])]
        simp [hk]
      · rw [List.find?_cons_of_neg _ (by simp [hk])]
        simp [hk]
    · simp

/-- The single-month `budgets` dict of the dashboard resolves a key to the
value contributed by the LAST matching row in storage order (monthly row:
its amount; yearly row: amount / 12). -/
lemma budgets_for_month_eq (db : List BudgetRow) (uid : Nat) (year : Int)
    (m : Nat) (key : String × String) :
    budgets_for_month db uid year m key =
      ((db.filter (fun b => decide (b.user_id = uid ∧ b.year = year ∧
          (b.month = some m ∨ b.month = none)))).reverse.find?
        (fun b => decide (key = (b.type, b.category)))).map
        (fun b => if b.month = none then b.amount / 12 else b.amount) := by
  unfold budgets_for_month
  rw [month_fold_eq key]
  exact opt_match_map _ _

lemma year_fold_fst (key : String × String) :
    ∀ (rows : List BudgetRow)
      (acc : ((String × String) → Option ℚ) × ((String × String) → Option ℚ)),
      (rows.foldl
        (fun (acc : ((String × String) → Option ℚ) × ((String × String) → Option ℚ)) b =>
          if b.month = none then
            (fun k => if k = (b.type, b.category) then some b.amount else acc.1 k,
             acc.2)
          else
            (acc.1,
             fun k =>
               if k = (b.type, b.category) then some ((acc.2 k).getD 0 + b.amount)
               else acc.2 k))
        acc).1 key =
      match rows.reverse.find?
          (fun b => decide (b.month = none ∧ key = (b.type, b.category))) with
      | some b => some b.amount
      | none => acc.1 key
  | [], acc => rfl
  | b :: rows, acc => by
    rw [List.foldl_cons, year_fold_fst key rows, List.reverse_cons, List.find?_append]
    rcases hf : rows.reverse.find?
        (fun b => decide (b.month = none ∧ key = (b.type, b.category)))
      with _ | r <;> rw [hf]
    · by_cases hmo : b.month = none
      · by_cases hk : key = (b.type, b.category)
        · rw [List.find?_cons_of_pos _ (by simp [hk, hmo])]
          simp [hmo, hk]
        · rw [List.find?_cons_of_neg _ (by simp [hk])]
          simp [hmo, hk]
      · rw [List.find?_cons_of_neg _ (by simp [hmo])]
        simp [hmo]
    · simp

lemma year_fold_snd (key : String × String) :
    ∀ (rows : List BudgetRow)
      (acc : ((String × String) → Option ℚ) × ((String × String) → Option ℚ)),
      (rows.foldl
        (fun (acc : ((String × String) → Option ℚ) × ((String × String) → Option ℚ)) b =>
          if b.month = none then
            (fun k => if k = (b.type, b.category) then some b.amount else acc.1 k,
             acc.2)
          else
            (acc.1,
             fun k =>
               if k = (b.type, b.category) then some ((acc.2 k).getD 0 + b.amount)
               else acc.2 k))
        acc).2 key =
      (if rows.filter (fun b => decide (b.month ≠ none ∧ key = (b.type, b.category)))
          = [] then acc.2 key
       else some ((acc.2 key).getD 0 +
        ((rows.filter (fun b => decide (b.month ≠ none ∧ key = (b.type, b.category)))).map
          (fun r => r.amount)).sum))
  | [], acc => by simp
  | b :: rows, acc => by
    rw [List.foldl_cons]
    by_cases hmo : b.month = none
    · rw [List.filter_cons_of_neg (by simp [hmo]), year_fold_snd key rows]
      simp [hmo]
    · by_cases hk : key = (b.type, b.category)
      · rw [List.filter_cons_of_pos (by simp [hmo, hk]), year_fold_snd key rows]
        have hstep : ((if b.month = none then
              ((fun k => if k = (b.type, b.category) then some b.amount else acc.1 k),
                acc.2)
            else
              (acc.1, fun k =>
                if k = (b.type, b.category) then some ((acc.2 k).getD 0 + b.amount)
                else acc.2 k)) :
            ((String × String) → Option ℚ) × ((String × String) → Option ℚ)).2 key =
            some ((acc.2 key).getD 0 + b.amount) := by
          simp [hmo, hk]
        rcases hempty : rows.filter
            (fun b => decide (b.month ≠ none ∧ key = (b.type, b.category)))
          with _ | ⟨hr, tr⟩
        · rw [hempty] at *
          rw [hstep]
          simp
        · rw [hempty] at *
          rw [hstep]
          simp only [List.cons_ne_self, List.map_cons, List.sum_cons]
          simp [add_assoc]
      · rw [List.filter_cons_of_neg (by simp [hk]), year_fold_snd key rows]
        simp [hmo, hk]

lemma opt_match_match (o : Option BudgetRow) (e : Option ℚ) :
    (match (match o with
            | some b => some b.amount
            | none => (none : Option ℚ)) with
      | some v => some v
      | none => e) =
    (match o with
      | some b => some b.amount
      | none => e) := by
  cases o <;> rfl

lemma budgets_for_year_eq (db : List BudgetRow) (uid : Nat) (year : Int)
    (key : String × String) :
    budgets_for_year db uid year key =
      match (db.filter (fun b => decide (b.user_id = uid ∧ b.year = year))).reverse.find?
          (fun b => decide (b.month = none ∧ key = (b.type, b.category))) with
      | some b => some b.amount
      | none =>
        if (db.filter (fun b => decide (b.user_id = uid ∧ b.year = year))).filter
            (fun b => decide (b.month ≠ none ∧ key = (b.type, b.category))) = []
        then none
        else some ((((db.filter (fun b => decide (b.user_id = uid ∧ b.year = year))).filter
            (fun b => decide (b.month ≠ none ∧ key = (b.type, b.category)))).map
            (fun r => r.amount)).sum) := by
  unfold budgets_for_year
  rw [year_fold_fst key, year_fold_snd key]
  simp only [Option.getD_none, zero_add]
  exact opt_match_match _ _

/-- The stored yearly rows carrying a given (uid, year, type, category). -/
def yearly_rows_for (db : List BudgetRow) (uid : Nat) (year : Int)
    (key : String × String) : List BudgetRow :=
  db.filter (fun b => decide (b.user_id = uid ∧ b.year = year ∧ b.month = none ∧
    key = (b.type, b.category)))

/-- The stored monthly rows carrying a given (uid, year, type, category). -/
def monthly_rows_for (db : List BudgetRow) (uid : Nat) (year : Int)
    (key : String × String) : List BudgetRow :=
  db.filter (fun b => decide (b.user_id = uid ∧ b.year = year ∧ b.month ≠ none ∧
    key = (b.type, b.category)))

lemma yearly_rows_split (db : List BudgetRow) (uid : Nat) (year : Int)
    (key : String × String) :
    (db.filter (fun b => decide (b.user_id = uid ∧ b.year = year))).filter
        (fun b => decide (b.month = none ∧ key = (b.type, b.category))) =
      yearly_rows_for db uid year key := by
  rw [List.filter_filter]
  apply List.filter_congr
  intro b _
  by_cases h1 : b.user_id = uid <;> by_cases h2 : b.year = year <;>
    by_cases h3 : b.month = none <;> by_cases h4 : key = (b.type, b.category) <;>
    simp [h1, h2, h3, h4]

lemma monthly_rows_split (db : List BudgetRow) (uid : Nat) (year : Int)
    (key : String × String) :
    (db.filter (fun b => decide (b.user_id = uid ∧ b.year = year))).filter
        (fun b => decide (b.month ≠ none ∧ key = (b.type, b.category))) =
      monthly_rows_for db uid year key := by
  rw [List.filter_filter]
  apply List.filter_congr
  intro b _
  by_cases h1 : b.user_id = uid <;> by_cases h2 : b.year = year <;>
    by_cases h3 : b.month = none <;> by_cases h4 : key = (b.type, b.category) <;>
    simp [h1, h2, h3, h4]

/-- **C5 (amended).** Budget resolution: for a single-month query, each key
resolves to the value contributed by the last matching stored row (monthly
row: its amount; yearly row: amount / 12) — so a monthly row wins over a
yearly one only when it comes later in storage order.  For a full-year query
the yearly row's amount wins when a yearly row exists (never the monthly
sum), otherwise the sum of the existing monthly rows is used, and a key with
no rows yields no entry (rendered as zero by the summary). -/
theorem budget_resolution_precedence (db : List BudgetRow) (uid : Nat)
    (year : Int) (m : Nat) (key : String × String) :
    (budgets_for_month db uid year m key =
      ((db.filter (fun b => decide (b.user_id = uid ∧ b.year = year ∧
          (b.month = some m ∨ b.month = none)))).reverse.find?
        (fun b => decide (key = (b.type, b.category)))).map
        (fun b => if b.month = none then b.amount / 12 else b.amount)) ∧
    (∀ r : BudgetRow, yearly_rows_for db uid year key = [r] →
      budgets_for_year db uid year key = some r.amount) ∧
    (yearly_rows_for db uid year key = [] →
      budgets_for_year db uid year key =
        (if monthly_rows_for db uid year key = [] then none
         else some (((monthly_rows_for db uid year key).map (fun r => r.amount)).sum))) ∧
    ((∀ b ∈ db, b.user_id = uid → b.year = year → ¬ (key = (b.type, b.category))) →
      budgets_for_year db uid year key = none ∧
      budgets_for_month db uid year m key = none ∧
      budget_for_summary (budgets_for_month db uid year m) key = 0) := by
  have hfindY : (db.filter (fun b => decide (b.user_id = uid ∧ b.year = year))).reverse.find?
      (fun b => decide (b.month = none ∧ key = (b.type, b.category))) =
      (yearly_rows_for db uid year key).reverse.head? := by
    rw [find?_eq_head_filter, List.filter_reverse, yearly_rows_split]
  have hC : yearly_rows_for db uid year key = [] →
      budgets_for_year db uid year key =
        (if monthly_rows_for db uid year key = [] then none
         else some (((monthly_rows_for db uid year key).map (fun r => r.amount)).sum)) := by
    intro hempty
    rw [budgets_for_year_eq, hfindY, hempty]
    simp only [List.reverse_nil, List.head?_nil]
    rw [monthly_rows_split]
  refine ⟨budgets_for_month_eq db uid year m key, ?_, hC, ?_⟩
  · intro r hr
    rw [budgets_for_year_eq, hfindY, hr]
    rfl
  · intro hnone
    have hY : yearly_rows_for db uid year key = [] := by
      apply List.filter_eq_nil_iff.mpr
      intro b hb
      simp only [decide_eq_true_eq, not_and]
      intro h1 h2 _
      exact hnone b hb h1 h2
    have hM : monthly_rows_for db uid year key = [] := by
      apply List.filter_eq_nil_iff.mpr
      intro b hb
      simp only [decide_eq_true_eq, not_and]
      intro h1 h2 _
      exact hnone b hb h1 h2
    have hmonth : budgets_for_month db uid year m key = none := by
      rw [budgets_for_month_eq]
      have hfind : (db.filter (fun b => decide (b.user_id = uid ∧ b.year = year ∧
          (b.month = some m ∨ b.month = none)))).reverse.find?
          (fun b => decide (key = (b.type, b.category))) = none := by
        apply List.find?_eq_none.mpr
        intro b hb
        have hb' := List.of_mem_filter (List.mem_reverse.mp hb)
        simp only [decide_eq_true_eq] at hb' ⊢
        exact hnone b (List.mem_of_mem_filter (List.mem_reverse.mp hb))
          hb'.1 hb'.2.1
      rw [hfind]
      rfl
    refine ⟨?_, hmonth, ?_⟩
    · rw [hC hY, hM]
      simp
    · rw [budget_for_summary, hmonth]
      rfl

/-- A store holding, for one key, a monthly row for March (150, stored
first) and a yearly row (1200, stored second). -/
def c5_db : List BudgetRow :=
  [mkBudgetRow 1 "Expenses" "Rent" 2024 (some 3) 150,
   mkBudgetRow 1 "Expenses" "Rent" 2024 none 1200]

/-- A monthly row for the queried month exists, yet the single-month
resolution returns the yearly amount divided by 12 (the yearly row comes
later in storage order and overwrites the monthly value in the dict). -/
theorem resolution_monthly_counterexample :
    mkBudgetRow 1 "Expenses" "Rent" 2024 (some 3) 150 ∈ c5_db ∧
    budgets_for_month c5_db 1 2024 3 ("Expenses", "Rent") = some ((1200 : ℚ) / 12) ∧
    (1200 : ℚ) / 12 = 100 ∧
    budgets_for_month c5_db 1 2024 3 ("Expenses", "Rent") ≠ some 150 := by
  have h2 : budgets_for_month c5_db 1 2024 3 ("Expenses", "Rent") =
      some ((1200 : ℚ) / 12) := rfl
  refine ⟨by decide, h2, by norm_num, ?_⟩
  rw [h2]
  intro h
  have h3 := (Option.some.injEq _ _).mp h
  norm_num at h3

theorem budget_resolution_precedence_witness :
    yearly_rows_for c5_db 1 2024 ("Expenses", "Rent") =
        [mkBudgetRow 1 "Expenses" "Rent" 2024 none 1200] ∧
    budgets_for_year c5_db 1 2024 ("Expenses", "Rent") =
      some ((mkBudgetRow 1 "Expenses" "Rent" 2024 none 1200).amount) :=
  ⟨by decide,
   (budget_resolution_precedence c5_db 1 2024 3 ("Expenses", "Rent")).2.1
     (mkBudgetRow 1 "Expenses" "Rent" 2024 none 1200) (by decide)⟩

/-! ## Owner scoping of deduplication -/

lemma load_go_new_rows_unowned :
    ∀ (ts : List TransformedTransaction) (rows : List TransactionRow)
      (hashes : List String) (i k : Nat) (r : TransactionRow),
      r ∈ (load_go rows hashes i k ts).1 → r ∈ rows ∨ r.user_id = none
  | [], _, _, _, _, _, hmem => Or.inl hmem
  | t :: ts, rows, hashes, i, k, r, hmem => by
    by_cases ht : t.transaction_hash ∈ hashes
    · rw [load_go, if_pos ht] at hmem
      exact load_go_new_rows_unowned ts rows hashes i (k + 1) r hmem
    · rw [load_go, if_neg ht] at hmem
      rcases load_go_new_rows_unowned ts _ _ (i + 1) k r hmem with hin | hnone
      · rcases List.mem_append.mp hin with hin' | hnew
        · exact Or.inl hin'
        · right
          rw [List.mem_singleton.mp hnew]
          rfl
      · exact Or.inr hnone

/-- A transaction persisted for a different owner (user 2). -/
def other_owner_row : TransactionRow :=
  { user_id := some 2, date := ⟨2024, 1, 5⟩, type := "Expenses",
    category := "Groceries", amount := 20, description := some "coop",
    source := "UBS", month := 1, year := 2024, source_file := some "old.csv",
    transaction_hash := "fp-1" }

/-- An incoming record carrying the same fingerprint, ingested in a run that
(according to the specification) belongs to a different owner. -/
def same_fp_transformed : TransformedTransaction :=
  { date := ⟨2024, 2, 6⟩, type := "Expenses", category := "Groceries",
    amount := 20, description := some "coop", source := "UBS",
    source_file := some "new.csv", transaction_hash := "fp-1" }

/-- **C2 (code evaluation).** The loader's existing-fingerprint query is not
scoped to any owner: a fingerprint persisted for a different owner makes the
loader skip the record (zero inserts), and the rows the loader itself
inserts never carry an owner at all — so deduplication as implemented is
global, not per (owner, fingerprint). -/
theorem dedup_not_owner_scoped :
    other_owner_row.user_id = some 2 ∧
    (load [other_owner_row] [same_fp_transformed]).2.inserted = 0 ∧
    (load [other_owner_row] [same_fp_transformed]).2.skipped = 1 ∧
    (load [other_owner_row] [same_fp_transformed]).1 = [other_owner_row] ∧
    (∀ (db : List TransactionRow) (ts : List TransformedTransaction)
      (r : TransactionRow), r ∈ (load db ts).1 → r ∈ db ∨ r.user_id = none) :=
  ⟨rfl, by decide, by decide, by decide,
   fun db ts r hmem => load_go_new_rows_unowned ts db (get_existing_hashes db) 0 0 r hmem⟩

end Lucid
